import Mathlib

/-!
Verification of the FMTP-LDM7 repository against its natural-language
specification.  The development below gives a shallow embedding of

* the wire-level declarations of src/UnidataFMTP/protocol/fmtp.h
  (the FmtpHeader struct, the header flag constants and the packet
  length constants), and

* the FMTPv3 receiver of src/UnidataFMTP/FMTPv3/receiver/fmtpRecvv3.h.
  Only the class declaration of the receiver is part of the source
  tree; the member-function bodies live in fmtpRecvv3.cpp, which is
  absent.  Wherever a definition depends on such a missing body it is
  modelled from the specification text and from the documentation
  comments of the declarations, and its doc comment says so.

Machine integers are embedded as Nat with explicit reduction modulo
2 ^ 32 where wraparound matters.
-/

/- ====================================================================
   Part 1.  The wire declarations of src/UnidataFMTP/protocol/fmtp.h
   ==================================================================== -/

/-- Field list of struct FmtpHeader, fmtp.h lines 63 to 70: each field
name together with its size in bytes.  The fields are, in declaration
order: src_port and dest_port (u_int16_t), then session_id, seq_number,
data_len and flags (u_int32_t each). -/
def fmtpHeaderFields : List (String × Nat) :=
  [("src_port", 2), ("dest_port", 2), ("session_id", 4),
   ("seq_number", 4), ("data_len", 4), ("flags", 4)]

/-- Round an offset up to the next multiple of a given alignment, as
the C struct layout rules do.  Alignment 0 is treated as 1. -/
def alignUp (off align : Nat) : Nat :=
  if align = 0 then off else ((off + align - 1) / align) * align

/-- Byte offsets assigned to a list of (size) fields under the C layout
rules for the scalar fields of struct FmtpHeader, where the alignment of
each field equals its size.  Returns the offset list and the end of the
last field. -/
def structOffsets (fields : List Nat) : List Nat × Nat :=
  fields.foldl
    (fun acc sz =>
      let off := alignUp acc.2 sz
      (acc.1 ++ [off], off + sz))
    ([], 0)

/-- Value of sizeof for a struct: the end of the last field rounded up
to the maximal field alignment. -/
def structSizeof (fields : List Nat) : Nat :=
  alignUp (structOffsets fields).2 (fields.foldl Nat.max 1)

/-- Byte offsets of the six fields of struct FmtpHeader. -/
def fmtpHeaderOffsets : List Nat :=
  (structOffsets (fmtpHeaderFields.map Prod.snd)).1

/-- Value of sizeof(FMTP_HEADER) for the struct declared in fmtp.h. -/
def sizeofFMTP_HEADER : Nat :=
  structSizeof (fmtpHeaderFields.map Prod.snd)

/-- Header flag constant FMTP_DATA, fmtp.h line 74. -/
def FMTP_DATA : Nat := 0x00000000

/-- Header flag constant FMTP_BOF, fmtp.h line 75. -/
def FMTP_BOF : Nat := 0x00000001

/-- Header flag constant FMTP_EOF, fmtp.h line 76. -/
def FMTP_EOF : Nat := 0x00000002

/-- Header flag constant FMTP_SENDER_MSG_EXP, fmtp.h line 77. -/
def FMTP_SENDER_MSG_EXP : Nat := 0x00000004

/-- Header flag constant FMTP_RETRANS_REQ, fmtp.h line 78. -/
def FMTP_RETRANS_REQ : Nat := 0x00000008

/-- Header flag constant FMTP_RETRANS_DATA, fmtp.h line 79. -/
def FMTP_RETRANS_DATA : Nat := 0x00000010

/-- Header flag constant FMTP_RETRANS_END, fmtp.h line 80. -/
def FMTP_RETRANS_END : Nat := 0x00000020

/-- Header flag constant FMTP_RETRANS_TIMEOUT, fmtp.h line 81. -/
def FMTP_RETRANS_TIMEOUT : Nat := 0x00000040

/-- Header flag constant FMTP_BOF_REQ, fmtp.h line 82. -/
def FMTP_BOF_REQ : Nat := 0x00000080

/-- Header flag constant FMTP_HISTORY_STATISTICS, fmtp.h line 83. -/
def FMTP_HISTORY_STATISTICS : Nat := 0x00000100

/-- The complete list of header flag constants defined by fmtp.h lines
74 to 83, in declaration order. -/
def fmtpHeaderFlagValues : List Nat :=
  [FMTP_DATA, FMTP_BOF, FMTP_EOF, FMTP_SENDER_MSG_EXP, FMTP_RETRANS_REQ,
   FMTP_RETRANS_DATA, FMTP_RETRANS_END, FMTP_RETRANS_TIMEOUT,
   FMTP_BOF_REQ, FMTP_HISTORY_STATISTICS]

/-- Constant FMTP_PACKET_LEN, fmtp.h line 154: the maximum total length
of an FMTP packet in bytes. -/
def FMTP_PACKET_LEN : Nat := 1460

/-- Constant FMTP_HLEN, fmtp.h line 155: sizeof(FMTP_HEADER). -/
def FMTP_HLEN : Nat := sizeofFMTP_HEADER

/-- Constant FMTP_DATA_LEN, fmtp.h line 156: the maximum payload length
of an FMTP packet, FMTP_PACKET_LEN minus sizeof(FMTP_HEADER). -/
def FMTP_DATA_LEN : Nat := FMTP_PACKET_LEN - sizeofFMTP_HEADER

/- ====================================================================
   Part 2.  Unsigned 32-bit product-index arithmetic of the receiver
   ==================================================================== -/

/-- The modulus of unsigned 32-bit arithmetic. -/
def U32 : Nat := 4294967296

/-- Two-complement reinterpretation of an unsigned 32-bit value as a
signed 32-bit integer. -/
def toInt32 (n : Nat) : Int :=
  if n % U32 < 2147483648 then ((n % U32 : Nat) : Int)
  else ((n % U32 : Nat) : Int) - (U32 : Int)

/-- Unsigned 32-bit subtraction a - b modulo 2 ^ 32. -/
def u32sub (a b : Nat) : Nat :=
  (a % U32 + U32 - b % U32) % U32

/-- Modelled from the spec: the product-index ordering used by the
receiver (fmtpRecvv3.cpp is not under src).  Index a counts as coming
after index b exactly when the signed 32-bit reinterpretation of the
unsigned difference a - b is positive. -/
def isAfter (a b : Nat) : Bool :=
  decide (0 < toInt32 (u32sub a b))

/-- Number of data segments of a product: the total product size
divided by the per-segment payload length, rounded up. -/
def segments (prodsize paylen : Nat) : Nat :=
  (prodsize + paylen - 1) / paylen

example : fmtpHeaderOffsets = [0, 2, 4, 8, 12, 16] := by decide
example : sizeofFMTP_HEADER = 20 := by decide
example : FMTP_DATA_LEN = 1440 := by decide
example : isAfter 5 3 = true := by decide
example : isAfter 3 5 = false := by decide
example : isAfter 2 (U32 - 4) = true := by decide
example : segments 3000 1000 = 3 := by decide
example : segments 2500 1000 = 3 := by decide

/- ====================================================================
   Part 3.  The FMTPv3 receiver state
   ==================================================================== -/

/-- Struct ProdTracker, fmtpRecvv3.h lines 65 to 72: the per-product
tracking entry.  The void pointer prodptr (the destination buffer
handed out by the receiving application) is embedded as a Bool that
records whether a destination buffer is attached. -/
structure ProdTracker where
  prodsize   : Nat
  prodptr    : Bool
  seqnum     : Nat
  paylen     : Nat
  numRetrans : Nat
deriving DecidableEq, Repr

/-- Modelled from the spec: the kind of a retransmission request placed
on the message queue (the INLReqMsg type of fmtpBase.h is not under
src; fmtpRecvv3.h line 295 declares the queue).  The four kinds follow
the request table of the spec. -/
inductive ReqType where
  | MISSING_BOP
  | MISSING_DATA
  | MISSING_EOP
  | RETX_END_REQ
deriving DecidableEq, Repr

/-- Modelled from the spec: one entry of the retransmission-request
queue msgqueue: a request kind, the product index, and for data
requests the sequence number and the payload length. -/
structure INLReqMsg where
  reqtype    : ReqType
  prodindex  : Nat
  seqnum     : Nat
  payloadlen : Nat
deriving DecidableEq, Repr

/-- Modelled from the spec: the state of the FMTPv3 receiver that the
claims are about.  The component containers mirror the member
variables of class fmtpRecvv3 (fmtpRecvv3.h lines 271 to 332):
trackermap is the map from product index to ProdTracker, misBOPset is
the set of product indexes whose BOP is missing, msgqueue is the
retransmission-request queue and prodidx_mcast is the highest product
index seen on the multicast channel.  The remaining fields are ghost
state used to express the claims: delivered and abandoned record the
terminal product indexes, stored records every (prodindex, seqnum)
pair whose data segment was written into a product buffer, bopDone
records every product index whose BOP has been processed, and the two
counters count dropped packets. -/
structure RecvState where
  trackermap       : List (Nat × ProdTracker)
  misBOPset        : List Nat
  msgqueue         : List INLReqMsg
  prodidx_mcast    : Nat
  EOPmap           : List Nat
  delivered        : List Nat
  abandoned        : List Nat
  stored           : List (Nat × Nat)
  bopDone          : List Nat
  malformedCount   : Nat
  unknownFlagCount : Nat
deriving DecidableEq, Repr

/-- The receiver state at construction: every container empty. -/
def initState : RecvState :=
  ⟨[], [], [], 0, [], [], [], [], [], 0, 0⟩

/-- Product indexes holding an entry of the tracker map. -/
def trackedKeys (s : RecvState) : List Nat :=
  s.trackermap.map Prod.fst

/-- Look a product index up in the tracker map. -/
def lookupTracker (s : RecvState) (p : Nat) : Option ProdTracker :=
  s.trackermap.lookup p

/-- Update the tracker entry of one product index in place, leaving
the key set unchanged. -/
def updTracker (s : RecvState) (p : Nat) (f : ProdTracker → ProdTracker) :
    RecvState :=
  { s with trackermap :=
      s.trackermap.map (fun e => if e.1 = p then (e.1, f e.2) else e) }

/-- Remove the tracker entry of one product index. -/
def eraseTracker (s : RecvState) (p : Nat) : RecvState :=
  { s with trackermap := s.trackermap.filter (fun e => e.1 ≠ p) }

/-- A product index is terminal when it has been delivered or
abandoned. -/
def isTerminal (s : RecvState) (p : Nat) : Prop :=
  p ∈ s.delivered ∨ p ∈ s.abandoned

instance (s : RecvState) (p : Nat) : Decidable (isTerminal s p) := by
  unfold isTerminal; infer_instance

/-- A product index has been observed when it is in the tracker map,
in the missing-BOP set, or terminal. -/
def observed (s : RecvState) (p : Nat) : Prop :=
  p ∈ trackedKeys s ∨ p ∈ s.misBOPset ∨ p ∈ s.delivered ∨ p ∈ s.abandoned

instance (s : RecvState) (p : Nat) : Decidable (observed s p) := by
  unfold observed; infer_instance

/- ====================================================================
   Part 4.  Request-queue operations
   ==================================================================== -/

/-- Modelled from the declaration of fmtpRecvv3::addUnrqBOPinSet
(fmtpRecvv3.h line 106): insert a product index into the missing-BOP
set; the Bool result tells whether the index was newly inserted. -/
def addUnrqBOPinSet (s : RecvState) (p : Nat) : RecvState × Bool :=
  if p ∈ s.misBOPset then (s, false)
  else ({ s with misBOPset := p :: s.misBOPset }, true)

/-- Modelled from the declaration of fmtpRecvv3::pushMissingBopReq
(fmtpRecvv3.h line 169): append a BOP request for a product index to
the retransmission-request queue. -/
def pushMissingBopReq (s : RecvState) (p : Nat) : RecvState :=
  { s with msgqueue := s.msgqueue ++ [⟨ReqType.MISSING_BOP, p, 0, 0⟩] }

/-- Modelled from the declaration of fmtpRecvv3::pushMissingDataReq
(fmtpRecvv3.h line 162): append a data request to the queue. -/
def pushMissingDataReq (s : RecvState) (p seqnum datalen : Nat) : RecvState :=
  { s with msgqueue := s.msgqueue ++ [⟨ReqType.MISSING_DATA, p, seqnum, datalen⟩] }

/-- Modelled from the declaration of fmtpRecvv3::pushMissingEopReq
(fmtpRecvv3.h line 175): append an EOP request to the queue. -/
def pushMissingEopReq (s : RecvState) (p : Nat) : RecvState :=
  { s with msgqueue := s.msgqueue ++ [⟨ReqType.MISSING_EOP, p, 0, 0⟩] }

/-- Byte offsets of the data segments lying in the half-open interval
from old (inclusive) to mostRecent (exclusive), stepping by the
payload length. -/
def missingOffsets (old mostRecent paylen : Nat) : List Nat :=
  if paylen = 0 then []
  else (List.range ((mostRecent - old + paylen - 1) / paylen)).map
    (fun i => old + i * paylen)

/-- Modelled from the documentation of fmtpRecvv3::requestAnyMissingData
(fmtpRecvv3.h lines 199 to 209): push a data request for every segment
lying between the last previously-received data packet of the product
(the seqnum high-water mark of its tracker entry) and the most
recently-received one, and advance the high-water mark past the
requested range. -/
def requestAnyMissingData (s : RecvState) (p mostRecent : Nat) : RecvState :=
  match lookupTracker s p with
  | none => s
  | some t =>
      let reqs := missingOffsets t.seqnum mostRecent t.paylen
      let s1 := reqs.foldl (fun a off => pushMissingDataReq a p off t.paylen) s
      updTracker s1 p (fun u => { u with seqnum := Nat.max u.seqnum mostRecent })

/-- Modelled from the spec: request the BOP of one product index of a
detected gap.  The index enters the missing-BOP set and a BOP request
is pushed, but only when the index has not been observed before, so
that the missing-BOP set stays disjoint from the tracker map and from
the terminal sets. -/
def reqMissingBopGuarded (s : RecvState) (q : Nat) : RecvState :=
  if observed s q then s
  else
    match addUnrqBOPinSet s q with
    | (s1, true)  => pushMissingBopReq s1 q
    | (s1, false) => s1

/-- Modelled from the declaration of fmtpRecvv3::requestMissingBops
(fmtpRecvv3.h line 216): request BOP packets for a list of product
indexes. -/
def requestMissingBops (s : RecvState) (qs : List Nat) : RecvState :=
  qs.foldl reqMissingBopGuarded s

/-- Product indexes lying strictly between a and b in unsigned 32-bit
index order, in increasing order starting just after a. -/
def gapIndexes (a b : Nat) : List Nat :=
  (List.range (u32sub b a - 1)).map (fun i => (a + 1 + i) % U32)

/-- Modelled from the documentation of
fmtpRecvv3::requestMissingBopsExclusive (fmtpRecvv3.h lines 217 to
226): request BOP packets for the products after the current one up to
and excluding the given one; returns 1 when everything is okay and 2
when an out-of-sequence packet was received. -/
def requestMissingBopsExclusive (s : RecvState) (p : Nat) : RecvState × Nat :=
  if isAfter p s.prodidx_mcast then
    (requestMissingBops s (gapIndexes s.prodidx_mcast p), 1)
  else (s, 2)

/-- Modelled from the documentation of
fmtpRecvv3::requestMissingBopsInclusive (fmtpRecvv3.h lines 227 to
236): request BOP packets for the products after the current one up to
and including the given one; returns 1 when everything is okay and 2
when an out-of-sequence packet was received. -/
def requestMissingBopsInclusive (s : RecvState) (p : Nat) : RecvState × Nat :=
  if isAfter p s.prodidx_mcast then
    (requestMissingBops s (gapIndexes s.prodidx_mcast ((p + 1) % U32)), 1)
  else (s, 2)

/- ====================================================================
   Part 5.  Packet decoding and the tracker operations
   ==================================================================== -/

/-- Modelled from the spec: the BOP flag value of the FMTPv3 header
(the fmtpBase.h flag constants are not under src). -/
def specFMTP_BOP : Nat := 0x0001

/-- Modelled from the spec: the DATA flag value of the FMTPv3 header. -/
def specFMTP_DATA : Nat := 0x0002

/-- Modelled from the spec: the EOP flag value of the FMTPv3 header. -/
def specFMTP_EOP : Nat := 0x0004

/-- Modelled from the spec: the RETX_END flag value of the FMTPv3
header. -/
def specFMTP_RETX_END : Nat := 0x0040

/-- Modelled from the spec: the length of the FMTPv3 header in bytes. -/
def specFMTP_HEADER_LEN : Nat := 16

/-- Modelled from the spec: the maximum payload length of an FMTPv3
packet, the MTU of 1476 bytes minus the 16-byte header. -/
def specMAX_PAYLOAD : Nat := 1460

/-- An incoming frame as handed to the receiver: the total number of
bytes read from the socket, the decoded header fields, and, for a BOP
packet, the product size and payload length carried in the BOP
payload. -/
structure RawPkt where
  nbytes      : Nat
  flags       : Nat
  prodindex   : Nat
  seqnum      : Nat
  payload_len : Nat
  bopProdsize : Nat
  bopPaylen   : Nat
deriving DecidableEq, Repr

/-- A decoded packet event of the receiver. -/
inductive Pkt where
  | bop (prodindex prodsize paylen : Nat)
  | data (prodindex seqnum paylen : Nat)
  | eop (prodindex : Nat)
  | retxEnd (prodindex : Nat)
deriving DecidableEq, Repr

/-- Result of decoding an incoming frame. -/
inductive Decoded where
  | malformed
  | unknownFlag
  | ok (e : Pkt)
deriving DecidableEq, Repr

/-- Modelled from the spec and from the documentation of
fmtpRecvv3::decodeHeader (fmtpRecvv3.h lines 118 to 134): a frame is
malformed when it is shorter than the 16-byte header or when its
payload length field is invalid (larger than the MTU allows or not
matching the number of bytes read).  A well-formed multicast frame
whose flag is none of BOP, DATA and EOP is an unknown-flag frame. -/
def decodeMcastPkt (r : RawPkt) : Decoded :=
  if r.nbytes < specFMTP_HEADER_LEN then Decoded.malformed
  else if specMAX_PAYLOAD < r.payload_len then Decoded.malformed
  else if r.nbytes ≠ specFMTP_HEADER_LEN + r.payload_len then Decoded.malformed
  else if r.flags = specFMTP_BOP then
    Decoded.ok (Pkt.bop r.prodindex r.bopProdsize r.bopPaylen)
  else if r.flags = specFMTP_DATA then
    Decoded.ok (Pkt.data r.prodindex r.seqnum r.payload_len)
  else if r.flags = specFMTP_EOP then Decoded.ok (Pkt.eop r.prodindex)
  else Decoded.unknownFlag

/-- Modelled from the spec: decoding on the retransmission TCP channel
accepts the same frames as the multicast channel plus RETX_END
frames. -/
def decodeRetxPkt (r : RawPkt) : Decoded :=
  if r.nbytes < specFMTP_HEADER_LEN then Decoded.malformed
  else if specMAX_PAYLOAD < r.payload_len then Decoded.malformed
  else if r.nbytes ≠ specFMTP_HEADER_LEN + r.payload_len then Decoded.malformed
  else if r.flags = specFMTP_RETX_END then Decoded.ok (Pkt.retxEnd r.prodindex)
  else decodeMcastPkt r

/-- A fresh tracker entry built from the fields of a BOP payload, as
the spec describes BOP handling. -/
def mkTracker (prodsize paylen : Nat) : ProdTracker :=
  ⟨prodsize, true, 0, paylen, 0⟩

/-- Whether every data segment of the product has been stored. -/
def isComplete (s : RecvState) (p : Nat) (t : ProdTracker) : Bool :=
  (List.range (segments t.prodsize t.paylen)).all
    (fun i => decide ((p, i * t.paylen) ∈ s.stored))

/-- Mark the EOP of a product as having arrived. -/
def setEOPStatus (s : RecvState) (p : Nat) : RecvState :=
  if p ∈ s.EOPmap then s else { s with EOPmap := p :: s.EOPmap }

/-- Whether the EOP of a product has arrived. -/
def hasEOPStatus (s : RecvState) (p : Nat) : Bool :=
  decide (p ∈ s.EOPmap)

/-- Modelled from the spec: deliver a completed product.  The tracker
entry is removed and the product index becomes terminal in the
delivered set. -/
def deliverProd (s : RecvState) (p : Nat) : RecvState :=
  let s1 := eraseTracker s p
  { s1 with delivered := p :: s1.delivered }

/-- Modelled from the spec: abandon a live product.  The tracker entry
and any missing-BOP membership are removed and the product index
becomes terminal in the abandoned set. -/
def abandonProd (s : RecvState) (p : Nat) : RecvState :=
  let s1 := eraseTracker s p
  { s1 with misBOPset := s1.misBOPset.erase p,
            abandoned := p :: s1.abandoned }

/-- Modelled from the spec: after a data or EOP segment was stored,
deliver the product when its EOP has arrived and all segments are
present. -/
def checkDeliver (s : RecvState) (p : Nat) : RecvState :=
  match lookupTracker s p with
  | none => s
  | some t =>
      if hasEOPStatus s p ∧ isComplete s p t then deliverProd s p else s

/-- Modelled from the spec: handling of a multicast BOP packet
(fmtpRecvv3::mcastBOPHandler, fmtpRecvv3.h lines 143 to 152).  A BOP
for an index already tracked or terminal is dropped.  Otherwise the
index is accepted if it is still in the missing-BOP set or comes after
the highest index seen on the multicast channel; acceptance removes it
from the missing-BOP set, creates its tracker entry and records the
BOP as processed.  When the index advances the multicast high-water
mark, BOP requests are pushed for the products in the gap and the mark
is advanced. -/
def mcastBOPHandler (s : RecvState) (p prodsize paylen : Nat) : RecvState :=
  if p ∈ trackedKeys s ∨ isTerminal s p then s
  else if p ∈ s.misBOPset ∨ isAfter p s.prodidx_mcast then
    let s1 := { s with misBOPset := s.misBOPset.erase p,
                       trackermap := (p, mkTracker prodsize paylen) :: s.trackermap,
                       bopDone := p :: s.bopDone }
    if isAfter p s1.prodidx_mcast then
      let s2 := (requestMissingBopsExclusive s1 p).1
      { s2 with prodidx_mcast := p }
    else s1
  else s

/-- Modelled from the spec and from the documentation of
fmtpRecvv3::recvMemData (fmtpRecvv3.h lines 237 to 246): handling of a
multicast DATA packet.  Without a tracker entry the packet is dropped;
if the index is not terminal it enters the missing-BOP set and, when
newly inserted, a BOP request is pushed.  With a tracker entry the
segment is validated, duplicate segments are dropped, and a fresh
segment is stored, any gap up to it is requested, and delivery is
checked. -/
def recvMemData (s : RecvState) (p seqnum paylen : Nat) : RecvState :=
  match lookupTracker s p with
  | none =>
      if isTerminal s p then s
      else
        match addUnrqBOPinSet s p with
        | (s1, true)  => pushMissingBopReq s1 p
        | (s1, false) => s1
  | some t =>
      if t.paylen = 0 ∨ seqnum % t.paylen ≠ 0 ∨ t.prodsize ≤ seqnum ∨
         paylen = 0 then s
      else if (p, seqnum) ∈ s.stored then s
      else
        let s1 := requestAnyMissingData s p seqnum
        let s2 := { s1 with stored := (p, seqnum) :: s1.stored }
        let s3 := updTracker s2 p
          (fun u => { u with seqnum := Nat.max u.seqnum (seqnum + t.paylen) })
        checkDeliver s3 p

/-- Modelled from the spec: handling of a multicast EOP packet
(fmtpRecvv3::mcastEOPHandler, fmtpRecvv3.h line 154).  Without a
tracker entry the packet is treated like a data packet without one.
With a tracker entry the EOP arrival is recorded; a complete product
is delivered and otherwise every remaining segment through the end of
the product is requested. -/
def mcastEOPHandler (s : RecvState) (p : Nat) : RecvState :=
  match lookupTracker s p with
  | none =>
      if isTerminal s p then s
      else
        match addUnrqBOPinSet s p with
        | (s1, true)  => pushMissingBopReq s1 p
        | (s1, false) => s1
  | some t =>
      let s1 := setEOPStatus s p
      if isComplete s1 p t then deliverProd s1 p
      else requestAnyMissingData s1 p t.prodsize

/-- Modelled from the spec: handling of a retransmitted BOP packet
(fmtpRecvv3::retxBOPHandler, fmtpRecvv3.h lines 179 to 186).  Only an
index still in the missing-BOP set is promoted into the tracker map; a
retransmitted BOP arriving after the multicast BOP is ignored. -/
def retxBOPHandler (s : RecvState) (p prodsize paylen : Nat) : RecvState :=
  if p ∈ s.misBOPset ∧ p ∉ trackedKeys s ∧ ¬ isTerminal s p then
    { s with misBOPset := s.misBOPset.erase p,
             trackermap := (p, mkTracker prodsize paylen) :: s.trackermap,
             bopDone := p :: s.bopDone }
  else s

/-- Modelled from the spec: handling of a retransmitted DATA packet.
The retransmission path never triggers new retransmission requests; a
segment whose bit is already set is dropped silently, and a fresh
valid segment is stored and delivery is checked. -/
def retxDataHandler (s : RecvState) (p seqnum paylen : Nat) : RecvState :=
  match lookupTracker s p with
  | none => s
  | some t =>
      if t.paylen = 0 ∨ seqnum % t.paylen ≠ 0 ∨ t.prodsize ≤ seqnum ∨
         paylen = 0 then s
      else if (p, seqnum) ∈ s.stored then s
      else
        let s1 := { s with stored := (p, seqnum) :: s.stored }
        checkDeliver s1 p

/-- Modelled from the spec: handling of a retransmitted EOP packet
(fmtpRecvv3::retxEOPHandler, fmtpRecvv3.h line 187).  The EOP arrival
is recorded and delivery is checked; no new requests are pushed. -/
def retxEOPHandler (s : RecvState) (p : Nat) : RecvState :=
  match lookupTracker s p with
  | none => s
  | some t =>
      let s1 := setEOPStatus s p
      if isComplete s1 p t then deliverProd s1 p else s1

/- ====================================================================
   Part 6.  The receiver operations
   ==================================================================== -/

/-- Modelled from the spec: reception of one multicast frame.  A
malformed frame and a well-formed frame with an unknown flag are
dropped and counted; BOP, DATA and EOP frames go to their handlers.
A RETX_END frame cannot be produced by the multicast decoder. -/
def on_mcast_packet (s : RecvState) (r : RawPkt) : RecvState :=
  match decodeMcastPkt r with
  | Decoded.malformed => { s with malformedCount := s.malformedCount + 1 }
  | Decoded.unknownFlag => { s with unknownFlagCount := s.unknownFlagCount + 1 }
  | Decoded.ok (Pkt.bop p sz pl) => mcastBOPHandler s p sz pl
  | Decoded.ok (Pkt.data p sq pl) => recvMemData s p sq pl
  | Decoded.ok (Pkt.eop p) => mcastEOPHandler s p
  | Decoded.ok (Pkt.retxEnd _) => s

/-- Modelled from the spec: abandonment of a product index on a
RETX_END frame from the sender.  A live index, tracked or awaiting its
BOP, becomes abandoned; anything else is a no-op. -/
def on_retx_end (s : RecvState) (p : Nat) : RecvState :=
  if p ∈ trackedKeys s ∨ p ∈ s.misBOPset then abandonProd s p else s

/-- Modelled from the spec: reception of one frame on the
retransmission TCP channel. -/
def on_retx_packet (s : RecvState) (r : RawPkt) : RecvState :=
  match decodeRetxPkt r with
  | Decoded.malformed => { s with malformedCount := s.malformedCount + 1 }
  | Decoded.unknownFlag => { s with unknownFlagCount := s.unknownFlagCount + 1 }
  | Decoded.ok (Pkt.bop p sz pl) => retxBOPHandler s p sz pl
  | Decoded.ok (Pkt.data p sq pl) => retxDataHandler s p sq pl
  | Decoded.ok (Pkt.eop p) => retxEOPHandler s p
  | Decoded.ok (Pkt.retxEnd p) => on_retx_end s p

/-- Modelled from the spec: expiry of the per-product timer.  A
complete tracked product is delivered on the defensive path; an
incomplete tracked product is abandoned and a RETX_END request is
pushed.  An index without a tracker entry is a no-op. -/
def on_timer_expired (s : RecvState) (p : Nat) : RecvState :=
  match lookupTracker s p with
  | none => s
  | some t =>
      if hasEOPStatus s p ∧ isComplete s p t then deliverProd s p
      else
        let s1 := abandonProd s p
        { s1 with msgqueue := s1.msgqueue ++ [⟨ReqType.RETX_END_REQ, p, 0, 0⟩] }

/-- Modelled from the spec: shutdown of the receiver drops every live
entry; all tracked indexes and all indexes awaiting a BOP become
abandoned. -/
def shutdownRecv (s : RecvState) : RecvState :=
  { s with trackermap := [],
           misBOPset := [],
           abandoned := trackedKeys s ++ s.misBOPset ++ s.abandoned }

/-- The multicast receive loop over a list of incoming frames. -/
def mcastLoop (s : RecvState) (rs : List RawPkt) : RecvState :=
  rs.foldl on_mcast_packet s

/- ====================================================================
   Part 7.  Helper lemmas about the container operations
   ==================================================================== -/

/-- Disjointness of two lists of product indexes. -/
def DisjointN (l1 l2 : List Nat) : Prop :=
  ∀ a, a ∈ l1 → a ∉ l2

instance (l1 l2 : List Nat) : Decidable (DisjointN l1 l2) :=
  List.decidableBAll _ l1

lemma disjointN_sub_left {l1 l1' l2 : List Nat}
    (h : DisjointN l1 l2) (hs : ∀ a, a ∈ l1' → a ∈ l1) : DisjointN l1' l2 :=
  fun a ha => h a (hs a ha)

lemma disjointN_sub_right {l1 l2 l2' : List Nat}
    (h : DisjointN l1 l2) (hs : ∀ a, a ∈ l2' → a ∈ l2) : DisjointN l1 l2' :=
  fun a ha hb => h a ha (hs a hb)

lemma mem_of_lookup_eq_some {l : List (Nat × ProdTracker)} {p : Nat}
    {t : ProdTracker} (h : l.lookup p = some t) : p ∈ l.map Prod.fst := by
  induction l with
  | nil => simp [List.lookup] at h
  | cons a l ih =>
      rw [List.lookup] at h
      by_cases hpa : p = a.1
      · simp [hpa]
      · have : (p == a.1) = false := by simp [hpa]
        rw [this] at h
        simp only [List.map_cons, List.mem_cons]
        exact Or.inr (ih h)

lemma not_mem_of_lookup_eq_none {l : List (Nat × ProdTracker)} {p : Nat}
    (h : l.lookup p = none) : p ∉ l.map Prod.fst := by
  induction l with
  | nil => simp
  | cons a l ih =>
      rw [List.lookup] at h
      by_cases hpa : p = a.1
      · simp [hpa] at h
      · have hb : (p == a.1) = false := by simp [hpa]
        rw [hb] at h
        simp only [List.map_cons, List.mem_cons]
        rintro (rfl | hm)
        · exact hpa rfl
        · exact ih h hm

lemma mapfst_filter_ne (l : List (Nat × ProdTracker)) (p : Nat) :
    (l.filter (fun e => e.1 ≠ p)).map Prod.fst
      = (l.map Prod.fst).filter (fun x => x ≠ p) := by
  induction l with
  | nil => rfl
  | cons a l ih =>
      by_cases hpa : a.1 = p <;> simpa [List.filter_cons, hpa] using ih

lemma trackedKeys_eraseTracker (s : RecvState) (p : Nat) :
    trackedKeys (eraseTracker s p)
      = (trackedKeys s).filter (fun x => x ≠ p) := by
  simpa [trackedKeys, eraseTracker] using mapfst_filter_ne s.trackermap p

lemma mem_trackedKeys_eraseTracker {s : RecvState} {p x : Nat} :
    x ∈ trackedKeys (eraseTracker s p) ↔ x ∈ trackedKeys s ∧ x ≠ p := by
  rw [trackedKeys_eraseTracker]
  simp

lemma trackedKeys_updTracker (s : RecvState) (p : Nat)
    (f : ProdTracker → ProdTracker) :
    trackedKeys (updTracker s p f) = trackedKeys s := by
  unfold trackedKeys updTracker
  simp only [List.map_map]
  apply List.map_congr_left
  intro e _
  by_cases h : e.1 = p <;> simp [h]

lemma updTracker_fields (s : RecvState) (p : Nat)
    (f : ProdTracker → ProdTracker) :
    (updTracker s p f).misBOPset = s.misBOPset ∧
    (updTracker s p f).msgqueue = s.msgqueue ∧
    (updTracker s p f).delivered = s.delivered ∧
    (updTracker s p f).abandoned = s.abandoned ∧
    (updTracker s p f).stored = s.stored ∧
    (updTracker s p f).bopDone = s.bopDone ∧
    (updTracker s p f).EOPmap = s.EOPmap := by
  simp [updTracker]

lemma foldl_pushMissingDataReq (p pl : Nat) (l : List Nat) (s : RecvState) :
    l.foldl (fun a off => pushMissingDataReq a p off pl) s
      = { s with msgqueue := s.msgqueue
            ++ l.map (fun off => ⟨ReqType.MISSING_DATA, p, off, pl⟩) } := by
  induction l generalizing s with
  | nil => simp
  | cons a l ih =>
      simp only [List.foldl_cons, List.map_cons]
      rw [ih]
      simp [pushMissingDataReq]

lemma requestAnyMissingData_fields (s : RecvState) (p m : Nat) :
    trackedKeys (requestAnyMissingData s p m) = trackedKeys s ∧
    (requestAnyMissingData s p m).misBOPset = s.misBOPset ∧
    (requestAnyMissingData s p m).delivered = s.delivered ∧
    (requestAnyMissingData s p m).abandoned = s.abandoned ∧
    (requestAnyMissingData s p m).stored = s.stored ∧
    (requestAnyMissingData s p m).bopDone = s.bopDone ∧
    (requestAnyMissingData s p m).EOPmap = s.EOPmap := by
  unfold requestAnyMissingData
  cases h : lookupTracker s p with
  | none => simp
  | some t =>
      simp only [foldl_pushMissingDataReq]
      refine ⟨?_, ?_, ?_, ?_, ?_, ?_, ?_⟩
      · rw [trackedKeys_updTracker]; simp [trackedKeys]
      all_goals simp [updTracker]

lemma setEOPStatus_fields (s : RecvState) (p : Nat) :
    trackedKeys (setEOPStatus s p) = trackedKeys s ∧
    (setEOPStatus s p).misBOPset = s.misBOPset ∧
    (setEOPStatus s p).delivered = s.delivered ∧
    (setEOPStatus s p).abandoned = s.abandoned ∧
    (setEOPStatus s p).stored = s.stored ∧
    (setEOPStatus s p).bopDone = s.bopDone ∧
    (setEOPStatus s p).trackermap = s.trackermap := by
  unfold setEOPStatus
  by_cases h : p ∈ s.EOPmap <;> simp [h, trackedKeys]

/- ====================================================================
   Part 8.  The state-partition invariant
   ==================================================================== -/

/-- The partition invariant of the receiver state: the tracker map has
at most one entry per product index, the four state containers are
duplicate free, and they are pairwise disjoint. -/
def RecvInv (s : RecvState) : Prop :=
  (trackedKeys s).Nodup ∧ s.misBOPset.Nodup ∧ s.delivered.Nodup ∧
  s.abandoned.Nodup ∧
  DisjointN (trackedKeys s) s.misBOPset ∧
  DisjointN (trackedKeys s) s.delivered ∧
  DisjointN (trackedKeys s) s.abandoned ∧
  DisjointN s.misBOPset s.delivered ∧
  DisjointN s.misBOPset s.abandoned ∧
  DisjointN s.delivered s.abandoned

instance (s : RecvState) : Decidable (RecvInv s) := by
  unfold RecvInv; infer_instance

/-- A product index occupies exactly one of the four states: tracker
map, missing-BOP set, delivered, abandoned. -/
def inExactlyOneState (s : RecvState) (x : Nat) : Prop :=
  (x ∈ trackedKeys s ∧ x ∉ s.misBOPset ∧ x ∉ s.delivered ∧ x ∉ s.abandoned) ∨
  (x ∉ trackedKeys s ∧ x ∈ s.misBOPset ∧ x ∉ s.delivered ∧ x ∉ s.abandoned) ∨
  (x ∉ trackedKeys s ∧ x ∉ s.misBOPset ∧ x ∈ s.delivered ∧ x ∉ s.abandoned) ∨
  (x ∉ trackedKeys s ∧ x ∉ s.misBOPset ∧ x ∉ s.delivered ∧ x ∈ s.abandoned)

lemma exactlyOne_of_inv {s : RecvState} (h : RecvInv s) :
    ∀ x, observed s x → inExactlyOneState s x := by
  obtain ⟨_, _, _, _, h5, h6, h7, h8, h9, h10⟩ := h
  intro x hx
  rcases hx with ht | hm | hd | ha
  · exact Or.inl ⟨ht, h5 x ht, h6 x ht, h7 x ht⟩
  · exact Or.inr (Or.inl ⟨fun ht => h5 x ht hm, hm, h8 x hm, h9 x hm⟩)
  · exact Or.inr (Or.inr (Or.inl
      ⟨fun ht => h6 x ht hd, fun hm => h8 x hm hd, hd, h10 x hd⟩))
  · exact Or.inr (Or.inr (Or.inr
      ⟨fun ht => h7 x ht ha, fun hm => h9 x hm ha, fun hd => h10 x hd ha, ha⟩))

lemma recvInv_of_fields {s s' : RecvState} (h : RecvInv s)
    (ht : trackedKeys s' = trackedKeys s) (hm : s'.misBOPset = s.misBOPset)
    (hd : s'.delivered = s.delivered) (ha : s'.abandoned = s.abandoned) :
    RecvInv s' := by
  unfold RecvInv
  rw [ht, hm, hd, ha]
  exact h

lemma disjointN_cons_left {l1 l2 : List Nat} {a : Nat}
    (h : DisjointN l1 l2) (ha : a ∉ l2) : DisjointN (a :: l1) l2 := by
  intro x hx
  rcases List.mem_cons.mp hx with rfl | hx
  · exact ha
  · exact h x hx

lemma disjointN_symm {l1 l2 : List Nat} (h : DisjointN l1 l2) :
    DisjointN l2 l1 :=
  fun a ha hb => h a hb ha

/-- Inserting an index that is in none of the four states into the
missing-BOP set preserves the invariant. -/
lemma recvInv_insert_misBOP {s : RecvState} {q : Nat} (h : RecvInv s)
    (hqt : q ∉ trackedKeys s) (hqm : q ∉ s.misBOPset)
    (hqd : q ∉ s.delivered) (hqa : q ∉ s.abandoned) :
    RecvInv { s with misBOPset := q :: s.misBOPset } := by
  obtain ⟨h1, h2, h3, h4, h5, h6, h7, h8, h9, h10⟩ := h
  refine ⟨h1, List.nodup_cons.mpr ⟨hqm, h2⟩, h3, h4, ?_, h6, h7, ?_, ?_, h10⟩
  · intro a ha hb
    rcases List.mem_cons.mp hb with rfl | hb
    · exact hqt ha
    · exact h5 a ha hb
  · exact disjointN_cons_left h8 hqd
  · exact disjointN_cons_left h9 hqa

lemma reqMissingBopGuarded_eq (s : RecvState) (q : Nat) :
    reqMissingBopGuarded s q =
      if observed s q then s
      else pushMissingBopReq { s with misBOPset := q :: s.misBOPset } q := by
  unfold reqMissingBopGuarded addUnrqBOPinSet
  by_cases h : observed s q
  · simp [h]
  · have hq : q ∉ s.misBOPset := fun hm => h (Or.inr (Or.inl hm))
    simp [h, hq]

lemma reqMissingBopGuarded_inv {s : RecvState} (q : Nat) (h : RecvInv s) :
    RecvInv (reqMissingBopGuarded s q) := by
  rw [reqMissingBopGuarded_eq]
  by_cases ho : observed s q
  · simpa [ho] using h
  · simp only [ho, if_false]
    have hqt : q ∉ trackedKeys s := fun hm => ho (Or.inl hm)
    have hqm : q ∉ s.misBOPset := fun hm => ho (Or.inr (Or.inl hm))
    have hqd : q ∉ s.delivered := fun hm => ho (Or.inr (Or.inr (Or.inl hm)))
    have hqa : q ∉ s.abandoned := fun hm => ho (Or.inr (Or.inr (Or.inr hm)))
    exact recvInv_insert_misBOP h hqt hqm hqd hqa

lemma requestMissingBops_inv {qs : List Nat} {s : RecvState} (h : RecvInv s) :
    RecvInv (requestMissingBops s qs) := by
  induction qs generalizing s with
  | nil => exact h
  | cons q qs ih => exact ih (reqMissingBopGuarded_inv q h)

lemma requestMissingBopsExclusive_inv {s : RecvState} (p : Nat)
    (h : RecvInv s) : RecvInv (requestMissingBopsExclusive s p).1 := by
  unfold requestMissingBopsExclusive
  by_cases ha : isAfter p s.prodidx_mcast
  · simpa [ha] using requestMissingBops_inv h
  · simpa [ha] using h

lemma deliverProd_inv {s : RecvState} {p : Nat} (h : RecvInv s)
    (hm : p ∉ s.misBOPset) (hd : p ∉ s.delivered) (ha : p ∉ s.abandoned) :
    RecvInv (deliverProd s p) := by
  obtain ⟨h1, h2, h3, h4, h5, h6, h7, h8, h9, h10⟩ := h
  have hsub : ∀ a, a ∈ trackedKeys (eraseTracker s p) → a ∈ trackedKeys s :=
    fun a hx => (mem_trackedKeys_eraseTracker.mp hx).1
  refine ⟨?_, h2, List.nodup_cons.mpr ⟨hd, h3⟩, h4, ?_, ?_, ?_, ?_, h9, ?_⟩
  · show (trackedKeys (eraseTracker s p)).Nodup
    rw [trackedKeys_eraseTracker]
    exact h1.filter _
  · exact disjointN_sub_left h5 hsub
  · intro a hx hb
    obtain ⟨hmem, hne⟩ := mem_trackedKeys_eraseTracker.mp hx
    rcases List.mem_cons.mp hb with rfl | hb
    · exact hne rfl
    · exact h6 a hmem hb
  · exact disjointN_sub_left h7 hsub
  · intro a hx hb
    rcases List.mem_cons.mp hb with rfl | hb
    · exact hm hx
    · exact h8 a hx hb
  · intro a hx hb
    rcases List.mem_cons.mp hx with rfl | hx
    · exact ha hb
    · exact h10 a hx hb

lemma abandonProd_inv {s : RecvState} {p : Nat} (h : RecvInv s)
    (hd : p ∉ s.delivered) (ha : p ∉ s.abandoned) :
    RecvInv (abandonProd s p) := by
  obtain ⟨h1, h2, h3, h4, h5, h6, h7, h8, h9, h10⟩ := h
  have hsub : ∀ a, a ∈ trackedKeys (eraseTracker s p) → a ∈ trackedKeys s :=
    fun a hx => (mem_trackedKeys_eraseTracker.mp hx).1
  refine ⟨?_, h2.erase p, h3, List.nodup_cons.mpr ⟨ha, h4⟩, ?_, ?_, ?_, ?_, ?_, ?_⟩
  · show (trackedKeys (eraseTracker s p)).Nodup
    rw [trackedKeys_eraseTracker]
    exact h1.filter _
  · intro a hx hb
    exact h5 a (hsub a hx) (List.mem_of_mem_erase hb)
  · exact disjointN_sub_left h6 hsub
  · intro a hx hb
    obtain ⟨hmem, hne⟩ := mem_trackedKeys_eraseTracker.mp hx
    rcases List.mem_cons.mp hb with rfl | hb
    · exact hne rfl
    · exact h7 a hmem hb
  · intro a hx hb
    exact h8 a (List.mem_of_mem_erase hx) hb
  · intro a hx hb
    obtain ⟨hne, hmem⟩ := (List.Nodup.mem_erase_iff h2).mp hx
    rcases List.mem_cons.mp hb with rfl | hb
    · exact hne rfl
    · exact h9 a hmem hb
  · intro a hx hb
    rcases List.mem_cons.mp hb with rfl | hb
    · exact hd hx
    · exact h10 a hx hb

lemma checkDeliver_inv {s : RecvState} {p : Nat} (h : RecvInv s) :
    RecvInv (checkDeliver s p) := by
  unfold checkDeliver
  cases hl : lookupTracker s p with
  | none => exact h
  | some t =>
      dsimp only
      have hp : p ∈ trackedKeys s := mem_of_lookup_eq_some hl
      have h5 := h.2.2.2.2.1
      have h6 := h.2.2.2.2.2.1
      have h7 := h.2.2.2.2.2.2.1
      by_cases hc : hasEOPStatus s p = true ∧ isComplete s p t = true
      · rw [if_pos hc]
        exact deliverProd_inv h (h5 p hp) (h6 p hp) (h7 p hp)
      · rw [if_neg hc]
        exact h

lemma misBOPAdd_inv {s : RecvState} {p : Nat} (h : RecvInv s)
    (hnt : p ∉ trackedKeys s) (hterm : ¬ isTerminal s p) :
    RecvInv (match addUnrqBOPinSet s p with
             | (s1, true) => pushMissingBopReq s1 p
             | (s1, false) => s1) := by
  unfold addUnrqBOPinSet
  by_cases hm : p ∈ s.misBOPset
  · rw [if_pos hm]
    exact h
  · rw [if_neg hm]
    dsimp only
    exact recvInv_insert_misBOP h hnt hm
      (fun hd => hterm (Or.inl hd)) (fun ha => hterm (Or.inr ha))

lemma recvMemData_inv {s : RecvState} (p sq pl : Nat) (h : RecvInv s) :
    RecvInv (recvMemData s p sq pl) := by
  unfold recvMemData
  cases hl : lookupTracker s p with
  | none =>
      dsimp only
      by_cases ht : isTerminal s p
      · rw [if_pos ht]; exact h
      · rw [if_neg ht]
        exact misBOPAdd_inv h (not_mem_of_lookup_eq_none hl) ht
  | some t =>
      dsimp only
      by_cases hv : t.paylen = 0 ∨ sq % t.paylen ≠ 0 ∨ t.prodsize ≤ sq ∨ pl = 0
      · rw [if_pos hv]; exact h
      · rw [if_neg hv]
        by_cases hdup : (p, sq) ∈ s.stored
        · rw [if_pos hdup]; exact h
        · rw [if_neg hdup]
          apply checkDeliver_inv
          have hf := requestAnyMissingData_fields s p sq
          refine recvInv_of_fields h ?_ ?_ ?_ ?_
          · rw [trackedKeys_updTracker]
            exact hf.1
          · exact hf.2.1
          · exact hf.2.2.1
          · exact hf.2.2.2.1

lemma mcastEOPHandler_inv {s : RecvState} (p : Nat) (h : RecvInv s) :
    RecvInv (mcastEOPHandler s p) := by
  unfold mcastEOPHandler
  cases hl : lookupTracker s p with
  | none =>
      dsimp only
      by_cases ht : isTerminal s p
      · rw [if_pos ht]; exact h
      · rw [if_neg ht]
        exact misBOPAdd_inv h (not_mem_of_lookup_eq_none hl) ht
  | some t =>
      dsimp only
      have hp : p ∈ trackedKeys s := mem_of_lookup_eq_some hl
      have hse := setEOPStatus_fields s p
      have h1 : RecvInv (setEOPStatus s p) :=
        recvInv_of_fields h hse.1 hse.2.1 hse.2.2.1 hse.2.2.2.1
      have hp1 : p ∈ trackedKeys (setEOPStatus s p) := by rw [hse.1]; exact hp
      by_cases hc : isComplete (setEOPStatus s p) p t = true
      · rw [if_pos hc]
        exact deliverProd_inv h1 (h1.2.2.2.2.1 p hp1) (h1.2.2.2.2.2.1 p hp1)
          (h1.2.2.2.2.2.2.1 p hp1)
      · rw [if_neg hc]
        have hf := requestAnyMissingData_fields (setEOPStatus s p) p t.prodsize
        refine recvInv_of_fields h1 hf.1 hf.2.1 hf.2.2.1 hf.2.2.2.1

lemma recvInv_insert_tracker {s : RecvState} {p : Nat} (t : ProdTracker)
    (h : RecvInv s) (hnt : p ∉ trackedKeys s) (hnd : p ∉ s.delivered)
    (hna : p ∉ s.abandoned) :
    RecvInv { s with misBOPset := s.misBOPset.erase p,
                     trackermap := (p, t) :: s.trackermap,
                     bopDone := p :: s.bopDone } := by
  obtain ⟨h1, h2, h3, h4, h5, h6, h7, h8, h9, h10⟩ := h
  refine ⟨?_, h2.erase p, h3, h4, ?_, ?_, ?_, ?_, ?_, h10⟩
  · show (p :: trackedKeys s).Nodup
    exact List.nodup_cons.mpr ⟨hnt, h1⟩
  · show DisjointN (p :: trackedKeys s) (s.misBOPset.erase p)
    intro a hx hb
    rcases List.mem_cons.mp hx with rfl | hx
    · exact ((List.Nodup.mem_erase_iff h2).mp hb).1 rfl
    · exact h5 a hx (List.mem_of_mem_erase hb)
  · show DisjointN (p :: trackedKeys s) s.delivered
    intro a hx hb
    rcases List.mem_cons.mp hx with rfl | hx
    · exact hnd hb
    · exact h6 a hx hb
  · show DisjointN (p :: trackedKeys s) s.abandoned
    intro a hx hb
    rcases List.mem_cons.mp hx with rfl | hx
    · exact hna hb
    · exact h7 a hx hb
  · intro a hx hb
    exact h8 a (List.mem_of_mem_erase hx) hb
  · intro a hx hb
    exact h9 a (List.mem_of_mem_erase hx) hb

lemma mcastBOPHandler_inv {s : RecvState} (p sz pl : Nat) (h : RecvInv s) :
    RecvInv (mcastBOPHandler s p sz pl) := by
  unfold mcastBOPHandler
  by_cases hg : p ∈ trackedKeys s ∨ isTerminal s p
  · rw [if_pos hg]; exact h
  · rw [if_neg hg]
    have hnt : p ∉ trackedKeys s := fun hx => hg (Or.inl hx)
    have hnd : p ∉ s.delivered := fun hx => hg (Or.inr (Or.inl hx))
    have hna : p ∉ s.abandoned := fun hx => hg (Or.inr (Or.inr hx))
    by_cases hacc : p ∈ s.misBOPset ∨ isAfter p s.prodidx_mcast = true
    · rw [if_pos hacc]
      have h1 := recvInv_insert_tracker (mkTracker sz pl) h hnt hnd hna
      by_cases ha2 : isAfter p ({ s with
            misBOPset := s.misBOPset.erase p,
            trackermap := (p, mkTracker sz pl) :: s.trackermap,
            bopDone := p :: s.bopDone } : RecvState).prodidx_mcast = true
      · rw [if_pos ha2]
        have h2 := requestMissingBopsExclusive_inv p h1
        exact recvInv_of_fields h2 rfl rfl rfl rfl
      · rw [if_neg ha2]
        exact h1
    · rw [if_neg hacc]; exact h

lemma retxBOPHandler_inv {s : RecvState} (p sz pl : Nat) (h : RecvInv s) :
    RecvInv (retxBOPHandler s p sz pl) := by
  unfold retxBOPHandler
  by_cases hg : p ∈ s.misBOPset ∧ p ∉ trackedKeys s ∧ ¬ isTerminal s p
  · rw [if_pos hg]
    exact recvInv_insert_tracker (mkTracker sz pl) h hg.2.1
      (fun hx => hg.2.2 (Or.inl hx)) (fun hx => hg.2.2 (Or.inr hx))
  · rw [if_neg hg]; exact h

lemma retxDataHandler_inv {s : RecvState} (p sq pl : Nat) (h : RecvInv s) :
    RecvInv (retxDataHandler s p sq pl) := by
  unfold retxDataHandler
  cases hl : lookupTracker s p with
  | none => exact h
  | some t =>
      dsimp only
      by_cases hv : t.paylen = 0 ∨ sq % t.paylen ≠ 0 ∨ t.prodsize ≤ sq ∨ pl = 0
      · rw [if_pos hv]; exact h
      · rw [if_neg hv]
        by_cases hdup : (p, sq) ∈ s.stored
        · rw [if_pos hdup]; exact h
        · rw [if_neg hdup]
          apply checkDeliver_inv
          exact recvInv_of_fields h rfl rfl rfl rfl

lemma retxEOPHandler_inv {s : RecvState} (p : Nat) (h : RecvInv s) :
    RecvInv (retxEOPHandler s p) := by
  unfold retxEOPHandler
  cases hl : lookupTracker s p with
  | none => exact h
  | some t =>
      dsimp only
      have hp : p ∈ trackedKeys s := mem_of_lookup_eq_some hl
      have hse := setEOPStatus_fields s p
      have h1 : RecvInv (setEOPStatus s p) :=
        recvInv_of_fields h hse.1 hse.2.1 hse.2.2.1 hse.2.2.2.1
      have hp1 : p ∈ trackedKeys (setEOPStatus s p) := by rw [hse.1]; exact hp
      by_cases hc : isComplete (setEOPStatus s p) p t = true
      · rw [if_pos hc]
        exact deliverProd_inv h1 (h1.2.2.2.2.1 p hp1) (h1.2.2.2.2.2.1 p hp1)
          (h1.2.2.2.2.2.2.1 p hp1)
      · rw [if_neg hc]
        exact h1

lemma on_retx_end_inv {s : RecvState} (p : Nat) (h : RecvInv s) :
    RecvInv (on_retx_end s p) := by
  unfold on_retx_end
  by_cases hg : p ∈ trackedKeys s ∨ p ∈ s.misBOPset
  · rw [if_pos hg]
    rcases hg with ht | hm
    · exact abandonProd_inv h (h.2.2.2.2.2.1 p ht) (h.2.2.2.2.2.2.1 p ht)
    · exact abandonProd_inv h (h.2.2.2.2.2.2.2.1 p hm) (h.2.2.2.2.2.2.2.2.1 p hm)
  · rw [if_neg hg]; exact h

lemma on_timer_expired_inv {s : RecvState} (p : Nat) (h : RecvInv s) :
    RecvInv (on_timer_expired s p) := by
  unfold on_timer_expired
  cases hl : lookupTracker s p with
  | none => exact h
  | some t =>
      dsimp only
      have hp : p ∈ trackedKeys s := mem_of_lookup_eq_some hl
      by_cases hc : hasEOPStatus s p = true ∧ isComplete s p t = true
      · rw [if_pos hc]
        exact deliverProd_inv h (h.2.2.2.2.1 p hp) (h.2.2.2.2.2.1 p hp)
          (h.2.2.2.2.2.2.1 p hp)
      · rw [if_neg hc]
        have h1 := abandonProd_inv h (h.2.2.2.2.2.1 p hp) (h.2.2.2.2.2.2.1 p hp)
        exact recvInv_of_fields h1 rfl rfl rfl rfl

lemma shutdownRecv_inv {s : RecvState} (h : RecvInv s) :
    RecvInv (shutdownRecv s) := by
  obtain ⟨h1, h2, h3, h4, h5, h6, h7, h8, h9, h10⟩ := h
  refine ⟨?_, ?_, h3, ?_, ?_, ?_, ?_, ?_, ?_, ?_⟩
  · show (List.map Prod.fst ([] : List (Nat × ProdTracker))).Nodup
    simp
  · show ([] : List Nat).Nodup
    simp
  · show (trackedKeys s ++ s.misBOPset ++ s.abandoned).Nodup
    rw [List.nodup_append]
    refine ⟨?_, h4, ?_⟩
    · rw [List.nodup_append]
      exact ⟨h1, h2, fun a ha hb => h5 a ha hb⟩
    · intro a ha hb
      rcases List.mem_append.mp ha with hx | hx
      · exact h7 a hx hb
      · exact h9 a hx hb
  · intro a ha
    simp [shutdownRecv, trackedKeys] at ha
  · intro a ha
    simp [shutdownRecv, trackedKeys] at ha
  · intro a ha
    simp [shutdownRecv, trackedKeys] at ha
  · intro a ha
    simp [shutdownRecv] at ha
  · intro a ha
    simp [shutdownRecv] at ha
  · show DisjointN s.delivered (trackedKeys s ++ s.misBOPset ++ s.abandoned)
    intro a ha hb
    rcases List.mem_append.mp hb with hx | hx
    · rcases List.mem_append.mp hx with hy | hy
      · exact h6 a hy ha
      · exact h8 a hy ha
    · exact h10 a ha hx

lemma on_mcast_packet_inv {s : RecvState} (r : RawPkt) (h : RecvInv s) :
    RecvInv (on_mcast_packet s r) := by
  unfold on_mcast_packet
  cases hd : decodeMcastPkt r with
  | malformed => exact h
  | unknownFlag => exact h
  | ok e =>
      cases e with
      | bop p sz pl => exact mcastBOPHandler_inv p sz pl h
      | data p sq pl => exact recvMemData_inv p sq pl h
      | eop p => exact mcastEOPHandler_inv p h
      | retxEnd p => exact h

lemma on_retx_packet_inv {s : RecvState} (r : RawPkt) (h : RecvInv s) :
    RecvInv (on_retx_packet s r) := by
  unfold on_retx_packet
  cases hd : decodeRetxPkt r with
  | malformed => exact h
  | unknownFlag => exact h
  | ok e =>
      cases e with
      | bop p sz pl => exact retxBOPHandler_inv p sz pl h
      | data p sq pl => exact retxDataHandler_inv p sq pl h
      | eop p => exact retxEOPHandler_inv p h
      | retxEnd p => exact on_retx_end_inv p h

/- ====================================================================
   Part 9.  Claim C1
   ==================================================================== -/

/-- C1: for every prodindex ever observed by the receiver, at every
instant the prodindex is in exactly one of the four states (missing-BOP
set, tracker map, delivered, abandoned); in particular the tracker map
holds at most one entry per prodindex and the missing-BOP set and the
tracker map are disjoint, and this partition invariant is preserved by
every operation: on_mcast_packet, on_retx_packet, on_retx_end,
on_timer_expired and shutdown. -/
theorem claim_C1_state_partition (s : RecvState) (r : RawPkt) (p q : Nat)
    (h : RecvInv s) :
    (RecvInv (on_mcast_packet s r) ∧
      ∀ x, observed (on_mcast_packet s r) x →
        inExactlyOneState (on_mcast_packet s r) x) ∧
    (RecvInv (on_retx_packet s r) ∧
      ∀ x, observed (on_retx_packet s r) x →
        inExactlyOneState (on_retx_packet s r) x) ∧
    (RecvInv (on_retx_end s p) ∧
      ∀ x, observed (on_retx_end s p) x →
        inExactlyOneState (on_retx_end s p) x) ∧
    (RecvInv (on_timer_expired s q) ∧
      ∀ x, observed (on_timer_expired s q) x →
        inExactlyOneState (on_timer_expired s q) x) ∧
    (RecvInv (shutdownRecv s) ∧
      ∀ x, observed (shutdownRecv s) x →
        inExactlyOneState (shutdownRecv s) x) := by
  have h1 := on_mcast_packet_inv r h
  have h2 := on_retx_packet_inv r h
  have h3 := on_retx_end_inv p h
  have h4 := on_timer_expired_inv q h
  have h5 := shutdownRecv_inv h
  exact ⟨⟨h1, exactlyOne_of_inv h1⟩, ⟨h2, exactlyOne_of_inv h2⟩,
         ⟨h3, exactlyOne_of_inv h3⟩, ⟨h4, exactlyOne_of_inv h4⟩,
         ⟨h5, exactlyOne_of_inv h5⟩⟩

/-- Witness for C1: the invariant hypothesis is discharged at the empty
initial state, with a concrete DATA packet for prodindex 7. -/
theorem claim_C1_state_partition_witness :
    RecvInv initState ∧
    ((RecvInv (on_mcast_packet initState ⟨1016, specFMTP_DATA, 7, 0, 1000, 0, 0⟩) ∧
      ∀ x, observed (on_mcast_packet initState ⟨1016, specFMTP_DATA, 7, 0, 1000, 0, 0⟩) x →
        inExactlyOneState (on_mcast_packet initState ⟨1016, specFMTP_DATA, 7, 0, 1000, 0, 0⟩) x) ∧
    (RecvInv (on_retx_packet initState ⟨1016, specFMTP_DATA, 7, 0, 1000, 0, 0⟩) ∧
      ∀ x, observed (on_retx_packet initState ⟨1016, specFMTP_DATA, 7, 0, 1000, 0, 0⟩) x →
        inExactlyOneState (on_retx_packet initState ⟨1016, specFMTP_DATA, 7, 0, 1000, 0, 0⟩) x) ∧
    (RecvInv (on_retx_end initState 3) ∧
      ∀ x, observed (on_retx_end initState 3) x →
        inExactlyOneState (on_retx_end initState 3) x) ∧
    (RecvInv (on_timer_expired initState 4) ∧
      ∀ x, observed (on_timer_expired initState 4) x →
        inExactlyOneState (on_timer_expired initState 4) x) ∧
    (RecvInv (shutdownRecv initState) ∧
      ∀ x, observed (shutdownRecv initState) x →
        inExactlyOneState (shutdownRecv initState) x)) :=
  ⟨by decide,
   claim_C1_state_partition initState ⟨1016, specFMTP_DATA, 7, 0, 1000, 0, 0⟩ 3 4
     (by decide)⟩

/- ====================================================================
   Part 10.  Claim C2
   ==================================================================== -/

/-- The BOP-before-store invariant: every tracked product index and
every product index with a stored data segment has a processed BOP. -/
def StoreInv (s : RecvState) : Prop :=
  (∀ p, p ∈ trackedKeys s → p ∈ s.bopDone) ∧
  (∀ q : Nat × Nat, q ∈ s.stored → q.1 ∈ s.bopDone)

instance (s : RecvState) : Decidable (StoreInv s) := by
  unfold StoreInv
  exact instDecidableAnd

lemma storeInv_shrink {s s' : RecvState} (h : StoreInv s)
    (ht : ∀ p, p ∈ trackedKeys s' → p ∈ trackedKeys s)
    (hs : s'.stored = s.stored) (hb : s'.bopDone = s.bopDone) :
    StoreInv s' := by
  constructor
  · intro p hp
    rw [hb]
    exact h.1 p (ht p hp)
  · intro q hq
    rw [hs] at hq
    rw [hb]
    exact h.2 q hq

lemma requestMissingBops_fields (qs : List Nat) (s : RecvState) :
    (requestMissingBops s qs).trackermap = s.trackermap ∧
    (requestMissingBops s qs).delivered = s.delivered ∧
    (requestMissingBops s qs).abandoned = s.abandoned ∧
    (requestMissingBops s qs).stored = s.stored ∧
    (requestMissingBops s qs).bopDone = s.bopDone := by
  induction qs generalizing s with
  | nil => exact ⟨rfl, rfl, rfl, rfl, rfl⟩
  | cons q qs ih =>
      have hstep : (reqMissingBopGuarded s q).trackermap = s.trackermap ∧
          (reqMissingBopGuarded s q).delivered = s.delivered ∧
          (reqMissingBopGuarded s q).abandoned = s.abandoned ∧
          (reqMissingBopGuarded s q).stored = s.stored ∧
          (reqMissingBopGuarded s q).bopDone = s.bopDone := by
        rw [reqMissingBopGuarded_eq]
        by_cases ho : observed s q
        · rw [if_pos ho]
          exact ⟨rfl, rfl, rfl, rfl, rfl⟩
        · rw [if_neg ho]
          exact ⟨rfl, rfl, rfl, rfl, rfl⟩
      have hrest := ih (reqMissingBopGuarded s q)
      have hfold : requestMissingBops s (q :: qs)
          = requestMissingBops (reqMissingBopGuarded s q) qs := rfl
      rw [hfold]
      exact ⟨hrest.1.trans hstep.1, hrest.2.1.trans hstep.2.1,
             hrest.2.2.1.trans hstep.2.2.1, hrest.2.2.2.1.trans hstep.2.2.2.1,
             hrest.2.2.2.2.trans hstep.2.2.2.2⟩

lemma requestMissingBopsExclusive_fields (s : RecvState) (p : Nat) :
    ((requestMissingBopsExclusive s p).1).trackermap = s.trackermap ∧
    ((requestMissingBopsExclusive s p).1).stored = s.stored ∧
    ((requestMissingBopsExclusive s p).1).bopDone = s.bopDone := by
  unfold requestMissingBopsExclusive
  by_cases ha : isAfter p s.prodidx_mcast = true
  · rw [if_pos ha]
    have hf := requestMissingBops_fields (gapIndexes s.prodidx_mcast p) s
    exact ⟨hf.1, hf.2.2.2.1, hf.2.2.2.2⟩
  · rw [if_neg ha]
    exact ⟨rfl, rfl, rfl⟩

lemma deliverProd_storeInv {s : RecvState} {p : Nat} (h : StoreInv s) :
    StoreInv (deliverProd s p) :=
  storeInv_shrink h
    (fun a hx =>
      (mem_trackedKeys_eraseTracker.mp
        (show a ∈ trackedKeys (eraseTracker s p) from hx)).1)
    rfl rfl

lemma checkDeliver_storeInv {s : RecvState} {p : Nat} (h : StoreInv s) :
    StoreInv (checkDeliver s p) := by
  unfold checkDeliver
  cases hl : lookupTracker s p with
  | none => exact h
  | some t =>
      dsimp only
      by_cases hc : hasEOPStatus s p = true ∧ isComplete s p t = true
      · rw [if_pos hc]
        exact deliverProd_storeInv h
      · rw [if_neg hc]
        exact h

lemma misBOPAdd_storeInv {s : RecvState} {p : Nat} (h : StoreInv s) :
    StoreInv (match addUnrqBOPinSet s p with
              | (s1, true) => pushMissingBopReq s1 p
              | (s1, false) => s1) := by
  unfold addUnrqBOPinSet
  by_cases hm : p ∈ s.misBOPset
  · rw [if_pos hm]
    exact h
  · rw [if_neg hm]
    dsimp only
    exact storeInv_shrink h (fun a hx => hx) rfl rfl

lemma recvMemData_storeInv {s : RecvState} (p sq pl : Nat) (h : StoreInv s) :
    StoreInv (recvMemData s p sq pl) := by
  unfold recvMemData
  cases hl : lookupTracker s p with
  | none =>
      dsimp only
      by_cases ht : isTerminal s p
      · rw [if_pos ht]; exact h
      · rw [if_neg ht]
        exact misBOPAdd_storeInv h
  | some t =>
      dsimp only
      by_cases hv : t.paylen = 0 ∨ sq % t.paylen ≠ 0 ∨ t.prodsize ≤ sq ∨ pl = 0
      · rw [if_pos hv]; exact h
      · rw [if_neg hv]
        by_cases hdup : (p, sq) ∈ s.stored
        · rw [if_pos hdup]; exact h
        · rw [if_neg hdup]
          apply checkDeliver_storeInv
          have hp : p ∈ trackedKeys s := mem_of_lookup_eq_some hl
          have hpb : p ∈ s.bopDone := h.1 p hp
          have hf := requestAnyMissingData_fields s p sq
          constructor
          · intro a ha
            rw [trackedKeys_updTracker] at ha
            have ha2 : a ∈ trackedKeys s := by
              rw [← hf.1]
              exact ha
            show a ∈ (requestAnyMissingData s p sq).bopDone
            rw [hf.2.2.2.2.2.1]
            exact h.1 a ha2
          · intro x hx
            have hx2 : x ∈ (p, sq) :: (requestAnyMissingData s p sq).stored := hx
            show x.1 ∈ (requestAnyMissingData s p sq).bopDone
            rw [hf.2.2.2.2.2.1]
            rcases List.mem_cons.mp hx2 with rfl | hx3
            · exact hpb
            · rw [hf.2.2.2.2.1] at hx3
              exact h.2 x hx3

lemma mcastEOPHandler_storeInv {s : RecvState} (p : Nat) (h : StoreInv s) :
    StoreInv (mcastEOPHandler s p) := by
  unfold mcastEOPHandler
  cases hl : lookupTracker s p with
  | none =>
      dsimp only
      by_cases ht : isTerminal s p
      · rw [if_pos ht]; exact h
      · rw [if_neg ht]
        exact misBOPAdd_storeInv h
  | some t =>
      dsimp only
      have hse := setEOPStatus_fields s p
      have h1 : StoreInv (setEOPStatus s p) := by
        apply storeInv_shrink h
        · intro a ha
          rw [hse.1] at ha
          exact ha
        · exact hse.2.2.2.2.1
        · exact hse.2.2.2.2.2.1
      by_cases hc : isComplete (setEOPStatus s p) p t = true
      · rw [if_pos hc]
        exact deliverProd_storeInv h1
      · rw [if_neg hc]
        have hf := requestAnyMissingData_fields (setEOPStatus s p) p t.prodsize
        apply storeInv_shrink h1
        · intro a ha
          rw [hf.1] at ha
          exact ha
        · exact hf.2.2.2.2.1
        · exact hf.2.2.2.2.2.1

lemma trackerInsert_storeInv {s : RecvState} (p : Nat) (t : ProdTracker)
    (h : StoreInv s) :
    StoreInv { s with misBOPset := s.misBOPset.erase p,
                      trackermap := (p, t) :: s.trackermap,
                      bopDone := p :: s.bopDone } := by
  constructor
  · intro a ha
    have ha2 : a ∈ p :: trackedKeys s := ha
    show a ∈ p :: s.bopDone
    rcases List.mem_cons.mp ha2 with rfl | ha3
    · exact List.mem_cons_self a s.bopDone
    · exact List.mem_cons.mpr (Or.inr (h.1 a ha3))
  · intro x hx
    show x.1 ∈ p :: s.bopDone
    exact List.mem_cons.mpr (Or.inr (h.2 x hx))

lemma mcastBOPHandler_storeInv {s : RecvState} (p sz pl : Nat)
    (h : StoreInv s) : StoreInv (mcastBOPHandler s p sz pl) := by
  unfold mcastBOPHandler
  by_cases hg : p ∈ trackedKeys s ∨ isTerminal s p
  · rw [if_pos hg]; exact h
  · rw [if_neg hg]
    by_cases hacc : p ∈ s.misBOPset ∨ isAfter p s.prodidx_mcast = true
    · rw [if_pos hacc]
      have h1 := trackerInsert_storeInv p (mkTracker sz pl) h
      by_cases ha2 : isAfter p ({ s with
            misBOPset := s.misBOPset.erase p,
            trackermap := (p, mkTracker sz pl) :: s.trackermap,
            bopDone := p :: s.bopDone } : RecvState).prodidx_mcast = true
      · rw [if_pos ha2]
        have hf := requestMissingBopsExclusive_fields ({ s with
            misBOPset := s.misBOPset.erase p,
            trackermap := (p, mkTracker sz pl) :: s.trackermap,
            bopDone := p :: s.bopDone } : RecvState) p
        apply storeInv_shrink h1
        · intro a ha
          show a ∈ trackedKeys _
          unfold trackedKeys at ha ⊢
          rw [hf.1] at ha
          exact ha
        · exact hf.2.1
        · exact hf.2.2
      · rw [if_neg ha2]
        exact h1
    · rw [if_neg hacc]; exact h

lemma retxBOPHandler_storeInv {s : RecvState} (p sz pl : Nat)
    (h : StoreInv s) : StoreInv (retxBOPHandler s p sz pl) := by
  unfold retxBOPHandler
  by_cases hg : p ∈ s.misBOPset ∧ p ∉ trackedKeys s ∧ ¬ isTerminal s p
  · rw [if_pos hg]
    exact trackerInsert_storeInv p (mkTracker sz pl) h
  · rw [if_neg hg]; exact h

lemma retxDataHandler_storeInv {s : RecvState} (p sq pl : Nat)
    (h : StoreInv s) : StoreInv (retxDataHandler s p sq pl) := by
  unfold retxDataHandler
  cases hl : lookupTracker s p with
  | none => exact h
  | some t =>
      dsimp only
      by_cases hv : t.paylen = 0 ∨ sq % t.paylen ≠ 0 ∨ t.prodsize ≤ sq ∨ pl = 0
      · rw [if_pos hv]; exact h
      · rw [if_neg hv]
        by_cases hdup : (p, sq) ∈ s.stored
        · rw [if_pos hdup]; exact h
        · rw [if_neg hdup]
          apply checkDeliver_storeInv
          have hp : p ∈ trackedKeys s := mem_of_lookup_eq_some hl
          constructor
          · intro a ha
            exact h.1 a ha
          · intro x hx
            have hx2 : x ∈ (p, sq) :: s.stored := hx
            rcases List.mem_cons.mp hx2 with rfl | hx3
            · exact h.1 p hp
            · exact h.2 x hx3

lemma retxEOPHandler_storeInv {s : RecvState} (p : Nat) (h : StoreInv s) :
    StoreInv (retxEOPHandler s p) := by
  unfold retxEOPHandler
  cases hl : lookupTracker s p with
  | none => exact h
  | some t =>
      dsimp only
      have hse := setEOPStatus_fields s p
      have h1 : StoreInv (setEOPStatus s p) := by
        apply storeInv_shrink h
        · intro a ha
          rw [hse.1] at ha
          exact ha
        · exact hse.2.2.2.2.1
        · exact hse.2.2.2.2.2.1
      by_cases hc : isComplete (setEOPStatus s p) p t = true
      · rw [if_pos hc]
        exact deliverProd_storeInv h1
      · rw [if_neg hc]
        exact h1

lemma abandonProd_storeInv {s : RecvState} {p : Nat} (h : StoreInv s) :
    StoreInv (abandonProd s p) :=
  storeInv_shrink h
    (fun a hx =>
      (mem_trackedKeys_eraseTracker.mp
        (show a ∈ trackedKeys (eraseTracker s p) from hx)).1)
    rfl rfl

lemma on_retx_end_storeInv {s : RecvState} (p : Nat) (h : StoreInv s) :
    StoreInv (on_retx_end s p) := by
  unfold on_retx_end
  by_cases hg : p ∈ trackedKeys s ∨ p ∈ s.misBOPset
  · rw [if_pos hg]
    exact abandonProd_storeInv h
  · rw [if_neg hg]; exact h

lemma on_timer_expired_storeInv {s : RecvState} (p : Nat) (h : StoreInv s) :
    StoreInv (on_timer_expired s p) := by
  unfold on_timer_expired
  cases hl : lookupTracker s p with
  | none => exact h
  | some t =>
      dsimp only
      by_cases hc : hasEOPStatus s p = true ∧ isComplete s p t = true
      · rw [if_pos hc]
        exact deliverProd_storeInv h
      · rw [if_neg hc]
        have h1 := abandonProd_storeInv (p := p) h
        exact storeInv_shrink h1 (fun a ha => ha) rfl rfl

lemma shutdownRecv_storeInv {s : RecvState} (h : StoreInv s) :
    StoreInv (shutdownRecv s) := by
  constructor
  · intro a ha
    have : a ∈ List.map Prod.fst ([] : List (Nat × ProdTracker)) := ha
    simp at this
  · intro x hx
    exact h.2 x hx

lemma on_mcast_packet_storeInv {s : RecvState} (r : RawPkt)
    (h : StoreInv s) : StoreInv (on_mcast_packet s r) := by
  unfold on_mcast_packet
  cases hd : decodeMcastPkt r with
  | malformed => exact h
  | unknownFlag => exact h
  | ok e =>
      cases e with
      | bop p sz pl => exact mcastBOPHandler_storeInv p sz pl h
      | data p sq pl => exact recvMemData_storeInv p sq pl h
      | eop p => exact mcastEOPHandler_storeInv p h
      | retxEnd p => exact h

lemma on_retx_packet_storeInv {s : RecvState} (r : RawPkt)
    (h : StoreInv s) : StoreInv (on_retx_packet s r) := by
  unfold on_retx_packet
  cases hd : decodeRetxPkt r with
  | malformed => exact h
  | unknownFlag => exact h
  | ok e =>
      cases e with
      | bop p sz pl => exact retxBOPHandler_storeInv p sz pl h
      | data p sq pl => exact retxDataHandler_storeInv p sq pl h
      | eop p => exact retxEOPHandler_storeInv p h
      | retxEnd p => exact on_retx_end_storeInv p h

lemma recvMemData_noEntry_eq {s : RecvState} {p : Nat} (sq pl : Nat)
    (hl : lookupTracker s p = none) (ht : ¬ isTerminal s p) :
    recvMemData s p sq pl =
      if p ∈ s.misBOPset then s
      else pushMissingBopReq { s with misBOPset := p :: s.misBOPset } p := by
  unfold recvMemData
  rw [hl]
  dsimp only
  rw [if_neg ht]
  unfold addUnrqBOPinSet
  by_cases hm : p ∈ s.misBOPset
  · rw [if_pos hm, if_pos hm]
  · rw [if_neg hm, if_neg hm]

/-- C2 (amended): no data segment of a product is ever stored into a
product buffer before a BOP for that product has been processed: the
tracked indexes and the indexes of stored segments always lie in the
set of BOP-processed indexes, and this is preserved by every receiver
operation.  When a DATA packet arrives, no tracker entry exists for
its prodindex and the prodindex is not already terminal, the receiver
puts the prodindex into the missing-BOP set, enqueues a BOP request
when the prodindex was not already in that set, and drops the DATA
payload without storing it. -/
theorem claim_C2_no_store_before_bop
    (s : RecvState) (p sq pl q : Nat) (r : RawPkt)
    (hl : lookupTracker s p = none) (ht : ¬ isTerminal s p)
    (h : StoreInv s) :
    p ∈ (recvMemData s p sq pl).misBOPset ∧
    (recvMemData s p sq pl).stored = s.stored ∧
    (recvMemData s p sq pl).msgqueue
      = s.msgqueue ++ (if p ∈ s.misBOPset then []
          else [⟨ReqType.MISSING_BOP, p, 0, 0⟩]) ∧
    StoreInv (on_mcast_packet s r) ∧ StoreInv (on_retx_packet s r) ∧
    StoreInv (on_retx_end s q) ∧ StoreInv (on_timer_expired s q) ∧
    StoreInv (shutdownRecv s) := by
  rw [recvMemData_noEntry_eq sq pl hl ht]
  refine ⟨?_, ?_, ?_, on_mcast_packet_storeInv r h, on_retx_packet_storeInv r h,
    on_retx_end_storeInv q h, on_timer_expired_storeInv q h,
    shutdownRecv_storeInv h⟩
  · by_cases hm : p ∈ s.misBOPset
    · rw [if_pos hm]
      exact hm
    · rw [if_neg hm]
      show p ∈ p :: s.misBOPset
      exact List.mem_cons_self p s.misBOPset
  · by_cases hm : p ∈ s.misBOPset
    · rw [if_pos hm]
    · rw [if_neg hm]
      rfl
  · by_cases hm : p ∈ s.misBOPset
    · rw [if_pos hm, if_pos hm]
      exact (List.append_nil s.msgqueue).symm
    · rw [if_neg hm, if_neg hm]
      rfl

/-- Witness for C2: the hypotheses are discharged at the empty initial
state with prodindex 7 and a concrete packet. -/
theorem claim_C2_no_store_before_bop_witness :
    (lookupTracker initState 7 = none ∧ ¬ isTerminal initState 7 ∧
      StoreInv initState) ∧
    (7 ∈ (recvMemData initState 7 0 1000).misBOPset ∧
    (recvMemData initState 7 0 1000).stored = initState.stored ∧
    (recvMemData initState 7 0 1000).msgqueue
      = initState.msgqueue ++ (if 7 ∈ initState.misBOPset then []
          else [⟨ReqType.MISSING_BOP, 7, 0, 0⟩]) ∧
    StoreInv (on_mcast_packet initState ⟨1016, specFMTP_DATA, 7, 0, 1000, 0, 0⟩) ∧
    StoreInv (on_retx_packet initState ⟨1016, specFMTP_DATA, 7, 0, 1000, 0, 0⟩) ∧
    StoreInv (on_retx_end initState 3) ∧
    StoreInv (on_timer_expired initState 3) ∧
    StoreInv (shutdownRecv initState)) :=
  ⟨⟨by decide, by decide, by decide⟩,
   claim_C2_no_store_before_bop initState 7 0 1000 3
     ⟨1016, specFMTP_DATA, 7, 0, 1000, 0, 0⟩ (by decide) (by decide) (by decide)⟩

/-- C2 counterexample: the claim as stated fails on the code model in
two places.  First, a DATA packet for prodindex 7 whose product has
already been delivered finds no tracker entry, yet the receiver does
not put 7 into the missing-BOP set (the packet is dropped silently).
Second, when prodindex 7 is already in the missing-BOP set, a further
DATA packet enqueues no BOP request. -/
theorem claim_C2_counterexample :
    (decodeMcastPkt ⟨1016, specFMTP_DATA, 7, 0, 1000, 0, 0⟩
        = Decoded.ok (Pkt.data 7 0 1000)) ∧
    (lookupTracker { initState with delivered := [7] } 7 = none ∧
      7 ∉ (on_mcast_packet { initState with delivered := [7] }
        ⟨1016, specFMTP_DATA, 7, 0, 1000, 0, 0⟩).misBOPset) ∧
    (lookupTracker { initState with misBOPset := [7] } 7 = none ∧
      (on_mcast_packet { initState with misBOPset := [7] }
        ⟨1016, specFMTP_DATA, 7, 0, 1000, 0, 0⟩).msgqueue = []) := by
  decide

/- ====================================================================
   Part 11.  Claims C6, C10 and C8
   ==================================================================== -/

lemma decodeMcast_malformed {r : RawPkt}
    (hm : r.nbytes < specFMTP_HEADER_LEN ∨ specMAX_PAYLOAD < r.payload_len ∨
          r.nbytes ≠ specFMTP_HEADER_LEN + r.payload_len) :
    decodeMcastPkt r = Decoded.malformed := by
  unfold decodeMcastPkt
  by_cases h1 : r.nbytes < specFMTP_HEADER_LEN
  · rw [if_pos h1]
  · rw [if_neg h1]
    by_cases h2 : specMAX_PAYLOAD < r.payload_len
    · rw [if_pos h2]
    · rw [if_neg h2]
      have h3 : r.nbytes ≠ specFMTP_HEADER_LEN + r.payload_len := by
        rcases hm with h | h | h
        · exact absurd h h1
        · exact absurd h h2
        · exact h
      rw [if_pos h3]

/-- C6: a malformed incoming packet (header too small, or an oversize
or inconsistent payload length) is dropped with the malformed count
incremented; the tracker map, the missing-BOP set and the request
queue are unchanged, and the receive loop goes on to process the
subsequent packets. -/
theorem claim_C6_malformed_drop (s : RecvState) (r : RawPkt)
    (rest : List RawPkt)
    (hm : r.nbytes < specFMTP_HEADER_LEN ∨ specMAX_PAYLOAD < r.payload_len ∨
          r.nbytes ≠ specFMTP_HEADER_LEN + r.payload_len) :
    on_mcast_packet s r = { s with malformedCount := s.malformedCount + 1 } ∧
    (on_mcast_packet s r).trackermap = s.trackermap ∧
    (on_mcast_packet s r).misBOPset = s.misBOPset ∧
    (on_mcast_packet s r).msgqueue = s.msgqueue ∧
    (on_mcast_packet s r).malformedCount = s.malformedCount + 1 ∧
    mcastLoop s (r :: rest)
      = mcastLoop { s with malformedCount := s.malformedCount + 1 } rest := by
  have hd := decodeMcast_malformed hm
  have he : on_mcast_packet s r
      = { s with malformedCount := s.malformedCount + 1 } := by
    unfold on_mcast_packet
    rw [hd]
  refine ⟨he, ?_, ?_, ?_, ?_, ?_⟩
  · rw [he]
  · rw [he]
  · rw [he]
  · rw [he]
  · show mcastLoop (on_mcast_packet s r) rest = _
    rw [he]

/-- Witness for C6: a five-byte frame, shorter than the header, at the
initial state. -/
theorem claim_C6_malformed_drop_witness :
    ((5 : Nat) < specFMTP_HEADER_LEN ∨
      specMAX_PAYLOAD < (0 : Nat) ∨ (5 : Nat) ≠ specFMTP_HEADER_LEN + 0) ∧
    (on_mcast_packet initState ⟨5, 0, 0, 0, 0, 0, 0⟩
        = { initState with malformedCount := initState.malformedCount + 1 } ∧
    (on_mcast_packet initState ⟨5, 0, 0, 0, 0, 0, 0⟩).trackermap
        = initState.trackermap ∧
    (on_mcast_packet initState ⟨5, 0, 0, 0, 0, 0, 0⟩).misBOPset
        = initState.misBOPset ∧
    (on_mcast_packet initState ⟨5, 0, 0, 0, 0, 0, 0⟩).msgqueue
        = initState.msgqueue ∧
    (on_mcast_packet initState ⟨5, 0, 0, 0, 0, 0, 0⟩).malformedCount
        = initState.malformedCount + 1 ∧
    mcastLoop initState (⟨5, 0, 0, 0, 0, 0, 0⟩ :: [])
        = mcastLoop { initState with
            malformedCount := initState.malformedCount + 1 } []) :=
  ⟨Or.inl (by decide),
   claim_C6_malformed_drop initState ⟨5, 0, 0, 0, 0, 0, 0⟩ []
     (Or.inl (by decide))⟩

/-- C10: for every receiver state and every prodindex argument, the
functions requestMissingBopsExclusive and requestMissingBopsInclusive
return exactly one of the two documented status values: 1 when
everything is okay and 2 when an out-of-sequence packet was
received. -/
theorem claim_C10_return_values (s : RecvState) (p : Nat) :
    ((requestMissingBopsExclusive s p).2 = 1 ∨
      (requestMissingBopsExclusive s p).2 = 2) ∧
    ((requestMissingBopsInclusive s p).2 = 1 ∨
      (requestMissingBopsInclusive s p).2 = 2) := by
  constructor
  · unfold requestMissingBopsExclusive
    by_cases ha : isAfter p s.prodidx_mcast = true
    · rw [if_pos ha]
      exact Or.inl rfl
    · rw [if_neg ha]
      exact Or.inr rfl
  · unfold requestMissingBopsInclusive
    by_cases ha : isAfter p s.prodidx_mcast = true
    · rw [if_pos ha]
      exact Or.inl rfl
    · rw [if_neg ha]
      exact Or.inr rfl

/-- C8: the product-index ordering is the sign of the signed 32-bit
reinterpretation of the unsigned difference, so a new BOP whose index
is MAX_U32 + k for small positive k, which wraps around to k - 1,
counts as coming after the highest-seen index MAX_U32 - k.  Here
MAX_U32 = U32 - 1 and the signed difference evaluates to 2k > 0. -/
theorem claim_C8_index_wraparound (k : Nat) (h1 : 0 < k)
    (h2 : k < 1073741824) :
    isAfter (U32 - 1 + k) (U32 - 1 - k) = true ∧
    toInt32 (u32sub (U32 - 1 + k) (U32 - 1 - k)) = 2 * k ∧
    (U32 - 1 + k) % U32 = k - 1 := by
  have hU : U32 = 4294967296 := rfl
  have ha : (U32 - 1 + k) % U32 = k - 1 := by
    rw [hU] at *
    omega
  have hsub : u32sub (U32 - 1 + k) (U32 - 1 - k) = 2 * k := by
    unfold u32sub
    rw [hU] at *
    omega
  have hmod : (2 * k) % U32 = 2 * k := by
    rw [hU] at *
    omega
  have htoi : toInt32 (2 * k) = 2 * k := by
    unfold toInt32
    have hlt : (2 * k) % U32 < 2147483648 := by
      rw [hU] at *
      omega
    rw [if_pos hlt, hmod]
    push_cast
    ring
  refine ⟨?_, ?_, ha⟩
  · unfold isAfter
    rw [hsub, htoi]
    simp only [decide_eq_true_eq]
    omega
  · rw [hsub]
    exact htoi

/-- Witness for C8 at k = 5: index 4294967300, wrapped to 4, comes
after index 4294967290. -/
theorem claim_C8_index_wraparound_witness :
    ((0 : Nat) < 5 ∧ (5 : Nat) < 1073741824) ∧
    (isAfter (U32 - 1 + 5) (U32 - 1 - 5) = true ∧
     toInt32 (u32sub (U32 - 1 + 5) (U32 - 1 - 5)) = 2 * 5 ∧
     (U32 - 1 + 5) % U32 = 5 - 1) :=
  ⟨⟨by decide, by decide⟩,
   claim_C8_index_wraparound 5 (by decide) (by decide)⟩

/- ====================================================================
   Part 12.  Claim C5: the per-product retransmission-request bound
   ==================================================================== -/

/-- Modelled from the spec: the per-product retransmission accounting
state.  numRetrans mirrors the field ProdTracker::numRetrans
(fmtpRecvv3.h line 71) and counts every request pushed for the
product; edgeSeg is the request high-water mark of
requestAnyMissingData measured in segments (field seqnum of
ProdTracker divided by the payload length); bopReqd records that a
BOP request was pushed (insertion into the missing-BOP set happens at
most once), eopReqd that an EOP request was pushed and eopSeen that
the EOP arrived. -/
structure PState where
  hasBOP     : Bool
  bopReqd    : Bool
  eopReqd    : Bool
  eopSeen    : Bool
  edgeSeg    : Nat
  numRetrans : Nat
deriving DecidableEq, Repr

/-- Modelled from the spec: the events of one product as seen by the
receiver: a DATA packet arriving before the BOP, the BOP, a DATA
packet with a given segment index, the EOP, and a timer check that
requests a missing EOP. -/
inductive PEvent where
  | dataBeforeBOP
  | pktBOP
  | pktData (seg : Nat)
  | pktEOP
  | timerCheck
deriving DecidableEq, Repr

/-- The accounting state of a product before any packet arrived. -/
def pinit : PState := ⟨false, false, false, false, 0, 0⟩

/-- Modelled from the spec and from the documentation of
requestAnyMissingData (fmtpRecvv3.h lines 199 to 209): one step of the
per-product request accounting.  A DATA packet before the BOP pushes
one BOP request unless one was already pushed.  A valid DATA packet
for segment index seg pushes one data request per missing segment
between the request high-water mark and seg, and advances the mark
past seg.  The EOP pushes one data request per segment between the
mark and the end of the product.  A timer check pushes one EOP request
when the EOP has not arrived and none was pushed before. -/
def pstep (segs : Nat) (s : PState) (e : PEvent) : PState :=
  match e with
  | PEvent.dataBeforeBOP =>
      if ¬ s.hasBOP ∧ ¬ s.bopReqd then
        { s with bopReqd := true, numRetrans := s.numRetrans + 1 }
      else s
  | PEvent.pktBOP => { s with hasBOP := true }
  | PEvent.pktData seg =>
      if s.hasBOP ∧ seg < segs then
        { s with numRetrans := s.numRetrans + (seg - s.edgeSeg),
                 edgeSeg := if s.edgeSeg ≤ seg then seg + 1 else s.edgeSeg }
      else s
  | PEvent.pktEOP =>
      if s.hasBOP then
        { s with eopSeen := true,
                 numRetrans := s.numRetrans + (segs - s.edgeSeg),
                 edgeSeg := if s.edgeSeg ≤ segs then segs else s.edgeSeg }
      else s
  | PEvent.timerCheck =>
      if s.hasBOP ∧ ¬ s.eopSeen ∧ ¬ s.eopReqd then
        { s with eopReqd := true, numRetrans := s.numRetrans + 1 }
      else s

/-- Run the per-product accounting over a list of events for a product
of the given size and payload length. -/
def prun (prodsize paylen : Nat) (events : List PEvent) : PState :=
  events.foldl (pstep (segments prodsize paylen)) pinit

/-- The request-count invariant of one product: the high-water mark
never passes the number of segments, and the number of pushed requests
is bounded by one per segment under the mark plus one possible BOP
request plus one possible EOP request. -/
def PInv (segs : Nat) (s : PState) : Prop :=
  s.edgeSeg ≤ segs ∧
  s.numRetrans ≤ (if s.bopReqd then 1 else 0)
      + (if s.eopReqd then 1 else 0) + s.edgeSeg

lemma pstep_inv (segs : Nat) (s : PState) (e : PEvent) (h : PInv segs s) :
    PInv segs (pstep segs s e) := by
  obtain ⟨hB, bR, eR, eS, ed, n⟩ := s
  obtain ⟨he, hn⟩ := h
  replace he : ed ≤ segs := he
  replace hn : n ≤ (if bR = true then 1 else 0)
      + (if eR = true then 1 else 0) + ed := hn
  cases e with
  | dataBeforeBOP =>
      cases hB <;> cases bR <;> cases eR <;>
        simp [pstep, PInv] at * <;> omega
  | pktBOP =>
      cases hB <;> cases bR <;> cases eR <;>
        simp [pstep, PInv] at * <;> omega
  | pktData seg =>
      dsimp only [pstep]
      cases hB with
      | false =>
          rw [if_neg (by simp)]
          exact ⟨he, hn⟩
      | true =>
          by_cases hs : seg < segs
          · rw [if_pos ⟨rfl, hs⟩]
            unfold PInv
            refine ⟨?_, ?_⟩
            · show (if ed ≤ seg then seg + 1 else ed) ≤ segs
              by_cases hcmp : ed ≤ seg
              · rw [if_pos hcmp]
                omega
              · rw [if_neg hcmp]
                exact he
            · show n + (seg - ed)
                  ≤ (if bR = true then 1 else 0) + (if eR = true then 1 else 0)
                    + (if ed ≤ seg then seg + 1 else ed)
              by_cases hcmp : ed ≤ seg
              · rw [if_pos hcmp]
                cases bR <;> cases eR <;> simp at hn ⊢ <;> omega
              · rw [if_neg hcmp]
                cases bR <;> cases eR <;> simp at hn ⊢ <;> omega
          · rw [if_neg (fun hcon => hs hcon.2)]
            exact ⟨he, hn⟩
  | pktEOP =>
      dsimp only [pstep]
      cases hB with
      | false =>
          rw [if_neg (by simp)]
          exact ⟨he, hn⟩
      | true =>
          rw [if_pos rfl]
          unfold PInv
          refine ⟨?_, ?_⟩
          · show (if ed ≤ segs then segs else ed) ≤ segs
            rw [if_pos he]
          · show n + (segs - ed)
                ≤ (if bR = true then 1 else 0) + (if eR = true then 1 else 0)
                  + (if ed ≤ segs then segs else ed)
            rw [if_pos he]
            cases bR <;> cases eR <;> simp at hn ⊢ <;> omega
  | timerCheck =>
      cases hB <;> cases bR <;> cases eR <;> cases eS <;>
        simp [pstep, PInv] at * <;> omega

lemma pfold_inv (segs : Nat) (events : List PEvent) (s : PState)
    (h : PInv segs s) : PInv segs (events.foldl (pstep segs) s) := by
  induction events generalizing s with
  | nil => exact h
  | cons e es ih => exact ih (pstep segs s e) (pstep_inv segs s e h)

/-- C5: for every product and every sequence of packet events, the
number of retransmission requests pushed for the product never exceeds
segments(P) + 2: at most one BOP request, at most one EOP request, and
at most one data request per data segment of the product. -/
theorem claim_C5_retx_request_bound (prodsize paylen : Nat)
    (events : List PEvent) :
    (prun prodsize paylen events).numRetrans
      ≤ segments prodsize paylen + 2 := by
  have h0 : PInv (segments prodsize paylen) pinit := by
    constructor
    · exact Nat.zero_le _
    · simp [pinit]
  have h := pfold_inv (segments prodsize paylen) events pinit h0
  obtain ⟨he, hn⟩ := h
  unfold prun
  by_cases hb : (List.foldl (pstep (segments prodsize paylen)) pinit events).bopReqd = true <;>
    by_cases hq : (List.foldl (pstep (segments prodsize paylen)) pinit events).eopReqd = true <;>
    simp [hb, hq] at hn <;> omega

/- ====================================================================
   Part 13.  Claim C9: the receiver constructor
   ==================================================================== -/

/-- The configuration carried by a constructed receiver: the six
constructor parameters of class fmtpRecvv3 (fmtpRecvv3.h lines 92 to
97).  The RecvProxy pointer is embedded as an Option, with none
standing for the null pointer. -/
structure fmtpRecvv3Args where
  tcpAddr   : String
  tcpPort   : Nat
  mcastAddr : String
  mcastPort : Nat
  notifier  : Option Unit
  ifAddr    : String
deriving DecidableEq, Repr

/-- The constructor declaration of class fmtpRecvv3 (fmtpRecvv3.h
lines 92 to 97).  Each parameter of the call is either supplied (some)
or omitted (none).  The declaration gives no default for tcpAddr,
tcpPort, mcastAddr and mcastPort, so the call fails when any of them
is omitted; notifier has the default value NULL and ifAddr the default
value 0.0.0.0, so omitting them succeeds. -/
def fmtpRecvv3Construct (tcpAddr : Option String) (tcpPort : Option Nat)
    (mcastAddr : Option String) (mcastPort : Option Nat)
    (notifier : Option (Option Unit)) (ifAddr : Option String) :
    Option fmtpRecvv3Args :=
  match tcpAddr, tcpPort, mcastAddr, mcastPort with
  | some a, some p, some m, some q =>
      some ⟨a, p, m, q, notifier.getD none, ifAddr.getD "0.0.0.0"⟩
  | _, _, _, _ => none

/-- C9 counterexample: construction succeeds with the notifier and the
local interface address both omitted, because the source declaration
gives them the default values NULL and 0.0.0.0; so it is not the case
that no construction succeeds with any configuration item absent. -/
theorem claim_C9_counterexample :
    (fmtpRecvv3Construct (some "10.0.0.1") (some 38800) (some "224.0.0.1")
        (some 5173) none none).isSome = true ∧
    fmtpRecvv3Construct (some "10.0.0.1") (some 38800) (some "224.0.0.1")
        (some 5173) none none
      = some ⟨"10.0.0.1", 38800, "224.0.0.1", 5173, none, "0.0.0.0"⟩ :=
  ⟨rfl, rfl⟩

/-- C9 (amended): the sender TCP address and port and the multicast
group address and port are required at construction (omitting any of
them fails), while the notifier and the local interface address may be
omitted, in which case they default to NULL and 0.0.0.0. -/
theorem claim_C9_required_config (a m i : String) (p q : Nat)
    (n : Option Unit) (no : Option (Option Unit)) (io : Option String) :
    fmtpRecvv3Construct none (some p) (some m) (some q) no io = none ∧
    fmtpRecvv3Construct (some a) none (some m) (some q) no io = none ∧
    fmtpRecvv3Construct (some a) (some p) none (some q) no io = none ∧
    fmtpRecvv3Construct (some a) (some p) (some m) none no io = none ∧
    fmtpRecvv3Construct (some a) (some p) (some m) (some q) (some n) (some i)
      = some ⟨a, p, m, q, n, i⟩ ∧
    fmtpRecvv3Construct (some a) (some p) (some m) (some q) none none
      = some ⟨a, p, m, q, none, "0.0.0.0"⟩ :=
  ⟨rfl, rfl, rfl, rfl, rfl, rfl⟩

/- ====================================================================
   Part 14.  Claims C3, C4 and C7: the wire declarations
   ==================================================================== -/

/-- C3 counterexample: the FmtpHeader struct declared in fmtp.h is 20
bytes, not 16, and its field names are src_port, dest_port,
session_id, seq_number, data_len and flags, not the five fields the
claim lists. -/
theorem claim_C3_counterexample :
    sizeofFMTP_HEADER = 20 ∧ ¬ sizeofFMTP_HEADER = 16 ∧
    ¬ fmtpHeaderFields.map Prod.fst
        = ["prodindex", "seqnum", "payload_len", "flags", "reserved"] := by
  refine ⟨by decide, by decide, by decide⟩

/-- C3 (amended): the FMTP packet header declared in fmtp.h is exactly
20 bytes with the field layout src_port:u16 at offset 0, dest_port:u16
at offset 2, session_id:u32 at offset 4, seq_number:u32 at offset 8,
data_len:u32 at offset 12 and flags:u32 at offset 16, with no
padding. -/
theorem claim_C3_header_layout :
    fmtpHeaderFields = [("src_port", 2), ("dest_port", 2), ("session_id", 4),
      ("seq_number", 4), ("data_len", 4), ("flags", 4)] ∧
    fmtpHeaderOffsets = [0, 2, 4, 8, 12, 16] ∧
    sizeofFMTP_HEADER = 20 ∧ FMTP_HLEN = 20 ∧
    (structOffsets (fmtpHeaderFields.map Prod.snd)).2 = 20 := by
  refine ⟨rfl, by decide, by decide, by decide, by decide⟩

/-- C4 counterexample: the header flag constants of fmtp.h are not the
seven claimed values: the data flag FMTP_DATA is 0x00 rather than
0x02, the constant FMTP_BOF_REQ = 0x80 lies outside the claimed value
set, and ten flag constants are defined rather than seven. -/
theorem claim_C4_counterexample :
    FMTP_DATA = 0 ∧ ¬ FMTP_DATA = 2 ∧ FMTP_BOF_REQ = 128 ∧
    FMTP_BOF_REQ ∉ [1, 2, 4, 8, 16, 32, 64] ∧
    fmtpHeaderFlagValues.length = 10 := by
  decide

/-- C4 (amended): the header flag constants defined by fmtp.h are the
ten values FMTP_DATA = 0x00, FMTP_BOF = 0x01, FMTP_EOF = 0x02,
FMTP_SENDER_MSG_EXP = 0x04, FMTP_RETRANS_REQ = 0x08,
FMTP_RETRANS_DATA = 0x10, FMTP_RETRANS_END = 0x20,
FMTP_RETRANS_TIMEOUT = 0x40, FMTP_BOF_REQ = 0x80 and
FMTP_HISTORY_STATISTICS = 0x100; and in the modelled receiver a
well-formed multicast frame whose flag is outside the known set is
dropped with only the unknown-flag counter incremented. -/
theorem claim_C4_flag_values :
    fmtpHeaderFlagValues = [0, 1, 2, 4, 8, 16, 32, 64, 128, 256] ∧
    (∀ (s : RecvState) (r : RawPkt), decodeMcastPkt r = Decoded.unknownFlag →
      on_mcast_packet s r
        = { s with unknownFlagCount := s.unknownFlagCount + 1 }) := by
  constructor
  · decide
  · intro s r hd
    unfold on_mcast_packet
    rw [hd]

/-- Witness for C4: a well-formed 16-byte frame carrying the unknown
flag value 9 at the initial state. -/
theorem claim_C4_flag_values_witness :
    decodeMcastPkt ⟨16, 9, 0, 0, 0, 0, 0⟩ = Decoded.unknownFlag ∧
    on_mcast_packet initState ⟨16, 9, 0, 0, 0, 0, 0⟩
      = { initState with
          unknownFlagCount := initState.unknownFlagCount + 1 } :=
  ⟨by decide,
   claim_C4_flag_values.2 initState ⟨16, 9, 0, 0, 0, 0, 0⟩ (by decide)⟩

/-- C7 counterexample: in fmtp.h the maximum packet is
FMTP_PACKET_LEN = 1460 bytes made of a 20-byte header and at most
FMTP_DATA_LEN = 1440 payload bytes; the header is not 16 bytes and the
maximum payload is not 1460 bytes. -/
theorem claim_C7_counterexample :
    FMTP_DATA_LEN = 1440 ∧ ¬ FMTP_DATA_LEN = 1460 ∧
    FMTP_HLEN = 20 ∧ ¬ FMTP_HLEN = 16 ∧ FMTP_PACKET_LEN = 1460 := by
  decide

/-- C7 (amended): every FMTP packet of fmtp.h is at most
FMTP_PACKET_LEN = 1460 bytes, a 20-byte header plus a payload of at
most FMTP_DATA_LEN = 1440 bytes; and the modelled multicast reader
drops as malformed, counting it, any frame whose payload length field
exceeds the maximum payload of the specification MTU. -/
theorem claim_C7_packet_bounds :
    FMTP_PACKET_LEN = 1460 ∧
    FMTP_HLEN + FMTP_DATA_LEN = FMTP_PACKET_LEN ∧
    FMTP_DATA_LEN = 1440 ∧
    (∀ (s : RecvState) (r : RawPkt), specMAX_PAYLOAD < r.payload_len →
      on_mcast_packet s r
        = { s with malformedCount := s.malformedCount + 1 }) := by
  refine ⟨by decide, by decide, by decide, ?_⟩
  intro s r hp
  have hd := decodeMcast_malformed (Or.inr (Or.inl hp))
  unfold on_mcast_packet
  rw [hd]

/-- Witness for C7: a frame whose payload length field claims 2000
bytes is dropped as malformed at the initial state. -/
theorem claim_C7_packet_bounds_witness :
    specMAX_PAYLOAD < (2000 : Nat) ∧
    on_mcast_packet initState ⟨2016, 2, 0, 0, 2000, 0, 0⟩
      = { initState with malformedCount := initState.malformedCount + 1 } :=
  ⟨by decide,
   claim_C7_packet_bounds.2.2.2 initState ⟨2016, 2, 0, 0, 2000, 0, 0⟩
     (by decide)⟩
